import Mathlib

/-!
# Histogram equalisation host program (`Tutorial 2/Tutorial 2.cpp`)

A shallow embedding of the try-block of `main`: the host program is the
straight-line list of statements it executes (`hostProgram`), interpreted over
an explicit world (device memory, kernel argument bindings, host vectors,
console output).  The four kernels live in `kernels/my_kernels.cl`, which is not
part of the sources; they are modelled from the specification.
-/

namespace Tutorial2

/-! ## Host constants (source lines 88-90) -/

/-- The `sizeof(mytype)` of line 90, with `typedef int mytype` (line 88): four bytes. -/
def sizeofMytype : Nat := 4

/-- Number of entries of `H`, `CH` and `LUT` (lines 89, 117, 131). -/
def bins : Nat := 256

/-- Line 90: `size_t histsize = H.size() * sizeof(mytype)`. -/
def histsize : Nat := bins * sizeofMytype

/-! ## Names the host program manipulates -/

/-- Device buffers declared on lines 93-97. -/
inductive Buf where
  | dev_image_input
  | dev_histogram_output
  | dev_cumulative_histogram_output
  | dev_LUT_output
  | dev_image_output
  deriving DecidableEq, Repr

/-- Kernel entry points looked up by name on lines 108, 122, 136, 146. -/
inductive Kern where
  | hist_simple
  | hist_cum
  | LUT
  | ReProject
  deriving DecidableEq, Repr

/-- Profiling events of lines 112, 126, 140, 151. -/
inductive Ev where
  | prof_event
  | prof_event2
  | prof_event3
  | prof_event4
  deriving DecidableEq, Repr

/-- Host vectors of lines 89, 117, 131, 154. -/
inductive HostVec where
  | H
  | CH
  | LUT
  | output_buffer
  deriving DecidableEq, Repr

/-- One statement of the try-block of `main` (lines 49-185).  The unused
`convolution_mask` of line 53 has no effect and is left out. -/
inductive Step where
  | loadImage
  | displayInput
  | getContext
  | printRunningOn
  | createQueue (profiling outOfOrder : Bool)
  | addSources
  | createProgram
  | build
  | newVector (v : HostVec) (n : Nat)
  | createBuffer (b : Buf) (bytes : Nat)
  | enqueueWriteBuffer (b : Buf) (blocking : Bool) (offset bytes : Nat)
  | enqueueFillBuffer (b : Buf) (pattern offset bytes : Nat)
  | createKernel (k : Kern)
  | setArg (k : Kern) (index : Nat) (b : Buf)
  | enqueueNDRangeKernel (k : Kern) (global : Nat) (e : Ev)
  | enqueueReadBuffer (b : Buf) (blocking : Bool) (offset bytes : Nat) (dst : HostVec)
  | printVector (label : String) (v : HostVec)
  | printExecutionTime (label : String) (endOf startOf : Ev)
  | printFullProfilingInfo (e : Ev)
  | constructOutputImage
  | displayOutput
  | waitLoop
  deriving DecidableEq, Repr

/-! ## The host program, statement by statement -/

/-- Lines 49-83: image load and display, context, queue, program build. -/
def setup : List Step :=
  [ .loadImage,                 -- 49
    .displayInput,              -- 50
    .getContext,                -- 59
    .printRunningOn,            -- 62
    .createQueue true false,    -- 65: CL_QUEUE_PROFILING_ENABLE only
    .addSources,                -- 70
    .createProgram,             -- 72
    .build ]                    -- 75-83

/-- Lines 89-97: host histogram vector and the five device buffers;
`n` is `image_input.size()`. -/
def allocation (n : Nat) : List Step :=
  [ .newVector .H bins,                                     -- 89
    .createBuffer .dev_image_input n,                       -- 93
    .createBuffer .dev_histogram_output histsize,           -- 94
    .createBuffer .dev_cumulative_histogram_output histsize, -- 95
    .createBuffer .dev_LUT_output histsize,                 -- 96
    .createBuffer .dev_image_output n ]                     -- 97

/-- Lines 102-115: upload, zero fill, `hist_simple`, read-back into `H`. -/
def stageA (n : Nat) : List Step :=
  [ .enqueueWriteBuffer .dev_image_input true 0 n,                      -- 102
    .enqueueFillBuffer .dev_histogram_output 0 0 histsize,              -- 103
    .createKernel .hist_simple,                                         -- 108
    .setArg .hist_simple 0 .dev_image_input,                            -- 109
    .setArg .hist_simple 1 .dev_histogram_output,                       -- 110
    .enqueueNDRangeKernel .hist_simple n .prof_event,                   -- 114
    .enqueueReadBuffer .dev_histogram_output true 0 histsize .H ]       -- 115

/-- Lines 117-129: zero fill, `hist_cum`, read-back into `CH`. -/
def stageB : List Step :=
  [ .newVector .CH bins,                                                        -- 117
    .enqueueFillBuffer .dev_cumulative_histogram_output 0 0 histsize,           -- 119
    .createKernel .hist_cum,                                                    -- 122
    .setArg .hist_cum 0 .dev_histogram_output,                                  -- 123
    .setArg .hist_cum 1 .dev_cumulative_histogram_output,                       -- 124
    .enqueueNDRangeKernel .hist_cum histsize .prof_event2,                      -- 128
    .enqueueReadBuffer .dev_cumulative_histogram_output true 0 histsize .CH ]   -- 129

/-- Lines 131-143: zero fill, `LUT`, read-back into `LUT`. -/
def stageC : List Step :=
  [ .newVector .LUT bins,                                       -- 131
    .enqueueFillBuffer .dev_LUT_output 0 0 histsize,            -- 133
    .createKernel .LUT,                                         -- 136
    .setArg .LUT 0 .dev_cumulative_histogram_output,            -- 137
    .setArg .LUT 1 .dev_LUT_output,                             -- 138
    .enqueueNDRangeKernel .LUT histsize .prof_event3,           -- 142
    .enqueueReadBuffer .dev_LUT_output true 0 histsize .LUT ]   -- 143

/-- Lines 146-156: `ReProject`, read-back into `output_buffer`
(`output_buffer.size()` is `n`). -/
def stageD (n : Nat) : List Step :=
  [ .createKernel .ReProject,                                       -- 146
    .setArg .ReProject 0 .dev_image_input,                          -- 147
    .setArg .ReProject 1 .dev_LUT_output,                           -- 148
    .setArg .ReProject 2 .dev_image_output,                         -- 149
    .newVector .output_buffer n,                                    -- 154
    .enqueueNDRangeKernel .ReProject n .prof_event4,                -- 155
    .enqueueReadBuffer .dev_image_output true 0 n .output_buffer ]  -- 156

/-- Lines 158-185: console report, output image, display loop. -/
def report : List Step :=
  [ .printVector "Histogram = " .H,                                                              -- 159
    .printExecutionTime "Histogram kernel execution time [ns]: " .prof_event .prof_event,        -- 160
    .printFullProfilingInfo .prof_event,                                                         -- 161
    .printVector "Cumulative Histogram = " .CH,                                                  -- 164
    .printExecutionTime "Cumulative Histogram kernel execution time [ns]: " .prof_event .prof_event2, -- 165
    .printFullProfilingInfo .prof_event2,                                                        -- 166
    .printVector "LUT = " .LUT,                                                                  -- 169
    .printExecutionTime "LUT kernel execution time [ns]: " .prof_event .prof_event3,             -- 170
    .printFullProfilingInfo .prof_event3,                                                        -- 171
    .printExecutionTime "Vector kernel execution time [ns]: " .prof_event .prof_event4,          -- 175
    .printFullProfilingInfo .prof_event4,                                                        -- 176
    .constructOutputImage,                                                                       -- 178
    .displayOutput,                                                                              -- 179
    .waitLoop ]                                                                                  -- 181-185

/-- The statements of the try-block in source order, for an image of `n` pixels. -/
def hostProgram (n : Nat) : List Step :=
  setup ++ allocation n ++ stageA n ++ stageB ++ stageC ++ stageD n ++ report

/-! ## Static readings of a statement list -/

/-- Whether a statement dispatches a kernel. -/
def Step.isDispatch : Step → Bool
  | .enqueueNDRangeKernel _ _ _ => true
  | _ => false

/-- The kernel dispatches of a statement list, with their global work sizes. -/
def dispatches (p : List Step) : List (Kern × Nat) :=
  p.filterMap fun s =>
    match s with
    | .enqueueNDRangeKernel k g _ => some (k, g)
    | _ => none

/-- The `(index, buffer)` pairs bound to kernel `k` by `setArg`, in source order. -/
def argBindings (p : List Step) (k : Kern) : List (Nat × Buf) :=
  p.filterMap fun s =>
    match s with
    | .setArg k2 i b => if k2 = k then some (i, b) else none
    | _ => none

/-- The read-backs of a statement list: device buffer, blocking flag, host destination. -/
def readBacks (p : List Step) : List (Buf × Bool × HostVec) :=
  p.filterMap fun s =>
    match s with
    | .enqueueReadBuffer b blocking _ _ dst => some (b, blocking, dst)
    | _ => none

/-- Number of elements of each stage's domain as the specification gives it:
pixels for `hist_simple` and `ReProject`, bins for `hist_cum` and `LUT`. -/
def domainSize (n : Nat) : Kern → Nat
  | .hist_simple => n
  | .hist_cum => bins
  | .LUT => bins
  | .ReProject => n

/-! ## Images, exceptions, console output -/

/-- An 8-bit image as `CImg<unsigned char>` holds it: four dimensions and the
pixel bytes. -/
structure Image where
  width : Nat
  height : Nat
  depth : Nat
  spectrum : Nat
  data : List Nat
  deriving DecidableEq, Repr

/-- The pixel count `CImg::size()`. -/
def Image.size (img : Image) : Nat :=
  img.width * img.height * img.depth * img.spectrum

/-- A loaded image holds `size()` bytes, each in `0..255`. -/
def Image.WellFormed (img : Image) : Prop :=
  img.data.length = img.size ∧ ∀ x ∈ img.data, x < 256

/-- The two exception types caught on lines 188 and 191. -/
inductive Exn where
  | clError (what : String) (err : Int)
  | cimgException (what : String)
  deriving DecidableEq, Repr

/-- What the program shows: windows and lines on standard output. -/
inductive Out where
  | display (title : String) (img : Image)
  | runningOn
  | buildInfo
  | vector (label : String) (xs : List Int)
  | executionTime (label : String) (ns : Nat)
  | fullProfilingInfo (e : Ev)
  deriving DecidableEq, Repr

/-- Everything the host program does not decide itself. -/
structure Env where
  /-- Order in which the device runs the work items of a dispatch. -/
  schedule : Kern → Nat → List Nat
  /-- Contents of freshly allocated device memory. -/
  uninitialised : Buf → Nat → Nat
  /-- Exception raised by the library call made by the statement at a position
  of the program, if any. -/
  raises : Nat → Option Exn
  /-- `CL_PROFILING_COMMAND_START` and `CL_PROFILING_COMMAND_END` of an event. -/
  timestamps : Ev → Nat × Nat
  /-- The `getErrorString` of `Utils.h`, which is not part of the sources. -/
  getErrorString : Int → String

/-- The device runs every work item of a dispatch exactly once, in some order. -/
def Env.Fair (env : Env) : Prop :=
  ∀ k g, (env.schedule k g).Perm (List.range g)

/-- No library call raises. -/
def Env.NoRaise (env : Env) : Prop :=
  ∀ i, env.raises i = none

/-- State of one run. -/
structure World where
  image_input : Image
  mem : Buf → List Nat
  args : List (Kern × Nat × Buf)
  host : HostVec → List Int
  output_image : Option Image
  stdout : List Out
  stderr : List String
  executed : List Step

/-- State before line 49. -/
def World.init : World :=
  { image_input := ⟨0, 0, 0, 0, []⟩
    mem := fun _ => []
    args := []
    host := fun _ => []
    output_image := none
    stdout := []
    stderr := []
    executed := [] }

/-! ## Device memory -/

/-- Bytes per element: the image buffers hold bytes, the three histogram
buffers hold `int`s read back into `std::vector<mytype>`. -/
def Buf.elemBytes : Buf → Nat
  | .dev_image_input => 1
  | .dev_image_output => 1
  | _ => sizeofMytype

/-- A 32-bit word read as a C `int`. -/
def toInt32 (word : Nat) : Int :=
  if word % 2 ^ 32 < 2 ^ 31 then (word % 2 ^ 32 : Nat) else ((word % 2 ^ 32 : Nat) : Int) - 2 ^ 32

/-- How the host sees one element of a buffer it reads back. -/
def Buf.decode (b : Buf) (x : Nat) : Int :=
  if b.elemBytes = 1 then (x % 256 : Nat) else toInt32 x

/-- Overwrite the elements of `old` at positions `start, start+1, ...` by `new`. -/
def overlay (old : List Nat) (start : Nat) (new : List Nat) : List Nat :=
  old.mapIdx fun i x => if start ≤ i then new.getD (i - start) x else x

/-- `clEnqueueFillBuffer`: every element in the byte range becomes `pattern`. -/
def fill (es : Nat) (old : List Nat) (pattern offset bytes : Nat) : List Nat :=
  old.mapIdx fun i x => if offset / es ≤ i ∧ i < (offset + bytes) / es then pattern else x

/-- The buffer bound to argument `i` of kernel `k` (latest `setArg` first). -/
def argOf (args : List (Kern × Nat × Buf)) (k : Kern) (i : Nat) : Option Buf :=
  (args.find? fun t => decide (t.1 = k ∧ t.2.1 = i)).map fun t => t.2.2

/-! ## The four kernels

`kernels/my_kernels.cl` is not part of the sources.  Each kernel is given as the
effect of one work item on the buffer it writes; an access outside a buffer
reads nothing and writes nothing. -/

/-- Largest output pixel value. -/
def maxOutput : Nat := 255

/-- Atomic read-modify-write addition on a 32-bit device word. -/
def atomic_add (B : List Nat) (i d : Nat) : List Nat :=
  match B[i]? with
  | some x => B.set i ((x + d) % 2 ^ 32)
  | none => B

/-- Modelled from the spec: the `hist_simple` kernel of `kernels/my_kernels.cl`
(section 4.1): work item `id` reads pixel value `v = A[id]` and atomically
increments counter `H[v]`. -/
def hist_simple (A : List Nat) (H : List Nat) (id : Nat) : List Nat :=
  match A[id]? with
  | some v => atomic_add H v 1
  | none => H

/-- Modelled from the spec: the `hist_cum` kernel of `kernels/my_kernels.cl`
(sections 4.2 and 5, source line 22): an atomic-accumulation scan over the 256
counters, in which work item `id` atomically adds `H[id]` to every `CH[i]` with
`id ≤ i < 256`, so that `CH[i]` accumulates `H[0] + ... + H[i]`. -/
def hist_cum (H : List Nat) (CH : List Nat) (id : Nat) : List Nat :=
  match H[id]? with
  | some h => (List.range' id (bins - id)).foldl (fun B i => atomic_add B i h) CH
  | none => CH

/-- Rounding of `num / den` to the nearest integer, halves upwards. -/
def roundHalfUp (num den : Nat) : Nat :=
  (2 * num + den) / (2 * den)

/-- Modelled from the spec: the `LUT` kernel of `kernels/my_kernels.cl`
(section 4.3): work item `id` stores
`round(CH[id] * maxOutput / totalPixels)` clamped to `[0, maxOutput]`, with
round-half-up.  The kernel receives the two buffers only (lines 137-138), so
the total pixel count is the last cumulative entry; when it is zero the work
item does not divide and stores nothing. -/
def LUT (CH : List Nat) (L : List Nat) (id : Nat) : List Nat :=
  match CH[id]?, CH[bins - 1]? with
  | some c, some totalPixels =>
    if totalPixels = 0 then L
    else L.set id (min (roundHalfUp (c * maxOutput) totalPixels) maxOutput)
  | _, _ => L

/-- Modelled from the spec: the `ReProject` kernel of `kernels/my_kernels.cl`
(section 4.4): work item `id` stores `LUT[A[id]]` into byte `B[id]`. -/
def ReProject (A L : List Nat) (B : List Nat) (id : Nat) : List Nat :=
  match A[id]? with
  | some v =>
    match L[v]? with
    | some y => B.set id (y % 256)
    | none => B
  | none => B

/-- One dispatch: the work items run one after the other in the order the
device chose, on the buffers bound by `setArg`. -/
def launch (env : Env) (k : Kern) (g : Nat) (w : World) : World :=
  match k with
  | .hist_simple =>
    match argOf w.args k 0, argOf w.args k 1 with
    | some a, some h =>
      let out := (env.schedule k g).foldl (hist_simple (w.mem a)) (w.mem h)
      { w with mem := Function.update w.mem h out }
    | _, _ => w
  | .hist_cum =>
    match argOf w.args k 0, argOf w.args k 1 with
    | some h, some c =>
      let out := (env.schedule k g).foldl (hist_cum (w.mem h)) (w.mem c)
      { w with mem := Function.update w.mem c out }
    | _, _ => w
  | .LUT =>
    match argOf w.args k 0, argOf w.args k 1 with
    | some c, some l =>
      let out := (env.schedule k g).foldl (LUT (w.mem c)) (w.mem l)
      { w with mem := Function.update w.mem l out }
    | _, _ => w
  | .ReProject =>
    match argOf w.args k 0, argOf w.args k 1, argOf w.args k 2 with
    | some a, some l, some b =>
      let out := (env.schedule k g).foldl (ReProject (w.mem a) (w.mem l)) (w.mem b)
      { w with mem := Function.update w.mem b out }
    | _, _, _ => w

/-! ## Interpreter -/

/-- `cl_ulong` difference `a - b`. -/
def sub64 (a b : Nat) : Nat :=
  (a % 2 ^ 64 + 2 ^ 64 - b % 2 ^ 64) % 2 ^ 64

/-- Effect of one statement that completes without raising. -/
def effect (env : Env) (img : Image) (w : World) : Step → World
  | .loadImage => { w with image_input := img }
  | .displayInput => { w with stdout := w.stdout ++ [.display "input" w.image_input] }
  | .getContext => w
  | .printRunningOn => { w with stdout := w.stdout ++ [.runningOn] }
  | .createQueue _ _ => w
  | .addSources => w
  | .createProgram => w
  | .build => w
  | .newVector v n => { w with host := Function.update w.host v (List.replicate n 0) }
  | .createBuffer b bytes =>
    let out := (List.range (bytes / b.elemBytes)).map (env.uninitialised b)
    { w with mem := Function.update w.mem b out }
  | .enqueueWriteBuffer b _ offset bytes =>
    let out := overlay (w.mem b) (offset / b.elemBytes) (w.image_input.data.take (bytes / b.elemBytes))
    { w with mem := Function.update w.mem b out }
  | .enqueueFillBuffer b pattern offset bytes =>
    { w with mem := Function.update w.mem b (fill b.elemBytes (w.mem b) pattern offset bytes) }
  | .createKernel k => { w with args := w.args.filter fun t => decide (t.1 ≠ k) }
  | .setArg k i b => { w with args := (k, i, b) :: w.args }
  | .enqueueNDRangeKernel k g _ => launch env k g w
  | .enqueueReadBuffer b _ offset bytes dst =>
    let got := (((w.mem b).drop (offset / b.elemBytes)).take (bytes / b.elemBytes)).map b.decode
    { w with host := Function.update w.host dst (got ++ (w.host dst).drop got.length) }
  | .printVector label v => { w with stdout := w.stdout ++ [.vector label (w.host v)] }
  | .printExecutionTime label endOf startOf =>
    let ns := sub64 (env.timestamps endOf).2 (env.timestamps startOf).1
    { w with stdout := w.stdout ++ [.executionTime label ns] }
  | .printFullProfilingInfo e => { w with stdout := w.stdout ++ [.fullProfilingInfo e] }
  | .constructOutputImage =>
    let o : Image :=
      { width := w.image_input.width
        height := w.image_input.height
        depth := w.image_input.depth
        spectrum := w.image_input.spectrum
        data := ((w.host .output_buffer).take w.image_input.size).map Int.toNat }
    { w with output_image := some o }
  | .displayOutput =>
    match w.output_image with
    | some o => { w with stdout := w.stdout ++ [.display "output" o] }
    | none => w
  | .waitLoop => w

/-- One completed statement: its effect, and its entry in the log. -/
def exec (env : Env) (img : Image) (w : World) (s : Step) : World :=
  let w2 := effect env img w s
  { w2 with executed := w2.executed ++ [s] }

/-- Statements that call into the OpenCL or CImg library and may therefore raise. -/
def Step.mayRaise : Step → Bool
  | .newVector _ _ => false
  | .printVector _ _ => false
  | _ => true

/-- What happens in the try-block when a statement raises: only the inner
handler of lines 78-83 acts (it prints the build information and rethrows). -/
def onRaise (w : World) : Step → World
  | .build => { w with stdout := w.stdout ++ [.buildInfo] }
  | _ => w

/-- Run statements from position `i` until the end or the first exception. -/
def runSteps (env : Env) (img : Image) : Nat → List Step → World → World × Option Exn
  | _, [], w => (w, none)
  | i, s :: rest, w =>
    match (if s.mayRaise then env.raises i else none) with
    | some e => (onRaise w s, some e)
    | none => runSteps env img (i + 1) rest (exec env img w s)

/-- The line a handler writes to standard error (lines 189 and 192). -/
def errorLine (env : Env) : Exn → String
  | .clError what err => "ERROR: " ++ what ++ ", " ++ env.getErrorString err
  | .cimgException what => "ERROR: " ++ what

/-- The handlers of lines 188-193. -/
def handler (env : Env) (w : World) : Option Exn → World
  | none => w
  | some e => { w with stderr := w.stderr ++ [errorLine env e] }

/-- Result of `main`. -/
structure Outcome where
  world : World
  raised : Option Exn
  exitCode : Int

/-- Lines 48-195 of `main` for the image file `img`: try-block, handlers,
`return 0`. -/
def main (env : Env) (img : Image) : Outcome :=
  let r := runSteps env img 0 (hostProgram img.size) World.init
  { world := handler env r.1 r.2, raised := r.2, exitCode := 0 }

/-! ## Device buffer contents of a run without exceptions

The value each device buffer holds once its stage has run, written as the fold
the interpreter computes. -/

/-- Histogram buffer after the `hist_simple` dispatch of line 114. -/
def devHistogram (env : Env) (img : Image) : List Nat :=
  (env.schedule .hist_simple img.size).foldl (hist_simple img.data) (List.replicate bins 0)

/-- Cumulative buffer after the `hist_cum` dispatch of line 128. -/
def devCumulative (env : Env) (img : Image) : List Nat :=
  (env.schedule .hist_cum histsize).foldl (hist_cum (devHistogram env img)) (List.replicate bins 0)

/-- LUT buffer after the `LUT` dispatch of line 142. -/
def devLUT (env : Env) (img : Image) : List Nat :=
  (env.schedule .LUT histsize).foldl (LUT (devCumulative env img)) (List.replicate bins 0)

/-- Output image buffer after the `ReProject` dispatch of line 155. -/
def devOutput (env : Env) (img : Image) : List Nat :=
  (env.schedule .ReProject img.size).foldl (ReProject img.data (devLUT env img))
    ((List.range img.size).map (env.uninitialised .dev_image_output))

/-- The execution times printed on standard output, with their labels. -/
def executionTimes (out : List Out) : List (String × Nat) :=
  out.filterMap fun o =>
    match o with
    | .executionTime label ns => some (label, ns)
    | _ => none

/-- Statements that print a histogram, cumulative histogram or LUT, or display
the output image (lines 159, 164, 169, 179). -/
def Step.showsResult : Step → Bool
  | .printVector _ _ => true
  | .displayOutput => true
  | _ => false

/-- The error used in the examples: a failed kernel dispatch. -/
def dispatchError : Exn := .clError "clEnqueueNDRangeKernel" (-5)

/-- The error OpenCL prescribes for a request of a zero-byte buffer. -/
def bufferSizeError : Exn := .clError "clCreateBuffer" (-61)

/-- Whether an output item shows a histogram, cumulative histogram, LUT or the
output image. -/
def Out.showsResult : Out → Bool
  | .vector _ _ => true
  | .display title _ => title == "output"
  | _ => false

/-! ## Concrete environments and images -/

/-- Time stamps used in the examples: each kernel starts after the previous one ended. -/
def sampleTimestamps : Ev → Nat × Nat
  | .prof_event => (100, 200)
  | .prof_event2 => (300, 450)
  | .prof_event3 => (500, 560)
  | .prof_event4 => (600, 700)

/-- A device that runs work items in index order, hands out memory holding
`0xCD` bytes, and whose library calls never raise. -/
def seqEnv : Env :=
  { schedule := fun _ g => List.range g
    uninitialised := fun _ _ => 205
    raises := fun _ => none
    timestamps := sampleTimestamps
    getErrorString := fun e =>
      if e = -5 then "CL_OUT_OF_RESOURCES"
      else if e = -61 then "CL_INVALID_BUFFER_SIZE"
      else "Unknown OpenCL error" }

/-- The same device with library calls that never raise. -/
def Env.quiet (env : Env) : Env :=
  { env with raises := fun _ => none }

/-- As `seqEnv`, but work items run in decreasing index order. -/
def revEnv : Env :=
  { seqEnv with schedule := fun _ g => (List.range g).reverse }

/-- As `seqEnv`, but the library call of the statement at position `i` raises `e`. -/
def failAt (i : Nat) (e : Exn) : Env :=
  { seqEnv with raises := fun j => if j = i then some e else none }

/-- The 2x2 image of scenario A. -/
def img4 : Image := ⟨2, 2, 1, 1, [10, 10, 200, 200]⟩

/-- An image without pixels. -/
def emptyImage : Image := ⟨0, 0, 0, 0, []⟩

/-- A `w` x `h` image whose pixels all have value `v`. -/
def uniformImage (w h v : Nat) : Image := ⟨w, h, 1, 1, List.replicate (w * h) v⟩

/-- A `w` x `h` x 2 image: first slice all `0`, second slice all `1`. -/
def twoToneImage (w h : Nat) : Image :=
  ⟨w, h, 2, 1, List.replicate (w * h) 0 ++ List.replicate (w * h) 1⟩

/-- The cumulative histogram of scenario A: 0 below bin 10, 2 for bins 10..199,
4 from bin 200 on. -/
def scenarioCH : List Nat :=
  List.replicate 10 0 ++ List.replicate 190 2 ++ List.replicate 56 4

/-- The identity lookup table `LUT[i] = i`. -/
def identityLUT : List Nat := List.range bins

/-- A world in which the five device buffers hold: the pixels of scenario A, an
arbitrary histogram, the cumulative histogram of scenario A, the identity
lookup table, and unspecified output bytes. -/
def scenarioWorld : World :=
  { World.init with
    image_input := img4
    mem := fun b =>
      match b with
      | .dev_image_input => img4.data
      | .dev_histogram_output => List.replicate bins 7
      | .dev_cumulative_histogram_output => scenarioCH
      | .dev_LUT_output => identityLUT
      | .dev_image_output => List.replicate 4 205 }

/-! # Theorems -/

/-! ## Kernel lemmas -/

theorem atomic_add_getElem? (B : List Nat) (i d j : Nat) :
    (atomic_add B i d)[j]? = if j = i then B[j]?.map (fun x => (x + d) % 2 ^ 32) else B[j]? := by
  unfold atomic_add
  by_cases hji : j = i
  · subst hji
    cases hB : B[j]? with
    | none => simp [hB]
    | some x =>
      have hlt : j < B.length := by
        rcases List.getElem?_eq_some.1 hB with ⟨h, _⟩
        exact h
      simp [List.getElem?_set, hlt]
  · cases hB : B[i]? with
    | none => simp [hji]
    | some x =>
      have hij : i ≠ j := fun h => hji h.symm
      simp [hji, List.getElem?_set_ne hij]

theorem lt_of_getElem?_map_mod (B C : List Nat) (g : Nat → Nat → Nat)
    (h : ∀ j : Nat, C[j]? = Option.map (fun x => g j x % 2 ^ 32) B[j]?) : ∀ y ∈ C, y < 2 ^ 32 := by
  intro y hy
  obtain ⟨j, hj⟩ := List.getElem?_of_mem hy
  rw [h j] at hj
  cases hB : B[j]? with
  | none => simp [hB] at hj
  | some x =>
    simp only [hB, Option.map_some', Option.some.injEq] at hj
    rw [← hj]
    exact Nat.mod_lt _ (by norm_num)

theorem foldl_adder (f : List Nat → Nat → List Nat) (δ : Nat → Nat → Nat)
    (hf : ∀ B id, (∀ x ∈ B, x < 2 ^ 32) →
      ∀ j : Nat, (f B id)[j]? = Option.map (fun x => (x + δ id j) % 2 ^ 32) B[j]?)
    (l : List Nat) : ∀ B : List Nat, (∀ x ∈ B, x < 2 ^ 32) → ∀ j : Nat,
      (l.foldl f B)[j]? =
        Option.map (fun x => (x + (l.map (fun id => δ id j)).sum) % 2 ^ 32) B[j]? := by
  induction l with
  | nil =>
    intro B hB j
    cases hj : B[j]? with
    | none => simp [hj]
    | some x =>
      have : x < 2 ^ 32 := hB x (List.getElem?_mem hj)
      simp only [List.foldl_nil, hj, List.map_nil, List.sum_nil, Nat.add_zero, Option.map_some',
        Nat.mod_eq_of_lt this]
  | cons a l ih =>
    intro B hB j
    have hB2 : ∀ x ∈ f B a, x < 2 ^ 32 :=
      lt_of_getElem?_map_mod B (f B a) (fun j x => x + δ a j) (hf B a hB)
    rw [List.foldl_cons, ih (f B a) hB2 j, hf B a hB j]
    cases B[j]? with
    | none => rfl
    | some x =>
      simp only [Option.map_some', List.map_cons, List.sum_cons, Option.some.injEq]
      omega

theorem foldl_writer (f : List Nat → Nat → List Nat) (val : Nat → Option Nat)
    (hf : ∀ B id, ∀ j : Nat,
      (f B id)[j]? = if j = id then Option.map (fun x => (val id).getD x) B[j]? else B[j]?)
    (l : List Nat) : ∀ B : List Nat, ∀ j : Nat,
      (l.foldl f B)[j]? = if j ∈ l then Option.map (fun x => (val j).getD x) B[j]? else B[j]? := by
  induction l with
  | nil => intro B j; simp
  | cons a l ih =>
    intro B j
    rw [List.foldl_cons, ih (f B a) j, hf B a j]
    by_cases hja : j = a
    · subst hja
      by_cases hjl : j ∈ l
      · cases B[j]? with
        | none => simp [hjl]
        | some x => cases hv : val j <;> simp [hjl, hv]
      · simp [hjl]
    · by_cases hjl : j ∈ l <;> simp [hja, hjl]

theorem length_atomic_add (B : List Nat) (i d : Nat) : (atomic_add B i d).length = B.length := by
  unfold atomic_add
  cases B[i]? <;> simp

theorem length_foldl (f : List Nat → Nat → List Nat)
    (hf : ∀ B id, (f B id).length = B.length) (l : List Nat) :
    ∀ B : List Nat, (l.foldl f B).length = B.length := by
  induction l with
  | nil => intro B; rfl
  | cons a l ih => intro B; rw [List.foldl_cons, ih, hf]

theorem length_hist_simple (A B : List Nat) (id : Nat) : (hist_simple A B id).length = B.length := by
  unfold hist_simple
  cases A[id]? <;> simp [length_atomic_add]

theorem length_hist_cum (H B : List Nat) (id : Nat) : (hist_cum H B id).length = B.length := by
  unfold hist_cum
  cases H[id]? with
  | none => rfl
  | some h => exact length_foldl _ (fun B i => length_atomic_add B i h) _ B

theorem length_LUT (CH B : List Nat) (id : Nat) : (LUT CH B id).length = B.length := by
  unfold LUT
  split
  · split <;> simp
  · rfl

theorem length_ReProject (A L B : List Nat) (id : Nat) : (ReProject A L B id).length = B.length := by
  unfold ReProject
  cases A[id]? with
  | none => rfl
  | some v =>
    show (match L[v]? with | some y => B.set id (y % 256) | none => B).length = B.length
    split <;> simp


theorem map_add_zero_mod (B : List Nat) (hB : ∀ x ∈ B, x < 2 ^ 32) (j : Nat) :
    Option.map (fun x => (x + 0) % 2 ^ 32) B[j]? = B[j]? := by
  cases hj : B[j]? with
  | none => rfl
  | some x =>
    have : x < 2 ^ 32 := hB x (List.getElem?_mem hj)
    simp only [Option.map_some', Nat.add_zero, Nat.mod_eq_of_lt this]

theorem hist_simple_getElem? (A B : List Nat) (id : Nat) (hB : ∀ x ∈ B, x < 2 ^ 32) (j : Nat) :
    (hist_simple A B id)[j]? =
      Option.map (fun x => (x + (if A[id]? = some j then 1 else 0)) % 2 ^ 32) B[j]? := by
  unfold hist_simple
  cases hA : A[id]? with
  | none => simpa using (map_add_zero_mod B hB j).symm
  | some v =>
    simp only [atomic_add_getElem?, Option.some.injEq]
    by_cases hjv : j = v
    · subst hjv; simp
    · have hvj : ¬ v = j := fun h => hjv h.symm
      simpa [hjv, hvj] using (map_add_zero_mod B hB j).symm

theorem foldl_atomic_add_range' (h : Nat) : ∀ (n s : Nat) (B : List Nat) (j : Nat),
    ((List.range' s n).foldl (fun B i => atomic_add B i h) B)[j]? =
      if s ≤ j ∧ j < s + n then Option.map (fun x => (x + h) % 2 ^ 32) B[j]? else B[j]? := by
  intro n
  induction n with
  | zero =>
    intro s B j
    have : ¬ (s ≤ j ∧ j < s + 0) := by omega
    rw [if_neg this]
    rfl
  | succ n ih =>
    intro s B j
    rw [List.range'_succ, List.foldl_cons, ih (s + 1) (atomic_add B s h) j, atomic_add_getElem?]
    by_cases hjs : j = s
    · subst hjs
      have h1 : ¬ (j + 1 ≤ j ∧ j < j + 1 + n) := by omega
      have h2 : j ≤ j ∧ j < j + (n + 1) := by omega
      simp [h1, h2]
    · by_cases hc : s + 1 ≤ j ∧ j < s + 1 + n
      · have h2 : s ≤ j ∧ j < s + (n + 1) := by omega
        simp [hjs, hc, h2]
      · have h2 : ¬ (s ≤ j ∧ j < s + (n + 1)) := by omega
        simp [hjs, hc, h2]

theorem hist_cum_getElem? (H B : List Nat) (id : Nat) (hB : ∀ x ∈ B, x < 2 ^ 32) (j : Nat) :
    (hist_cum H B id)[j]? =
      Option.map (fun x => (x + (if id ≤ j ∧ j < bins then H.getD id 0 else 0)) % 2 ^ 32) B[j]? := by
  unfold hist_cum
  cases hH : H[id]? with
  | none =>
    have : H.getD id 0 = 0 := by simp [List.getD_eq_getElem?_getD, hH]
    rw [this]
    simp only [ite_self]
    exact (map_add_zero_mod B hB j).symm
  | some h =>
    have hg : H.getD id 0 = h := by simp [List.getD_eq_getElem?_getD, hH]
    simp only [foldl_atomic_add_range', hg]
    by_cases hc : id ≤ j ∧ j < bins
    · have h2 : id ≤ j ∧ j < id + (bins - id) := by omega
      simp [hc, h2]
    · have h2 : ¬ (id ≤ j ∧ j < id + (bins - id)) := by omega
      rw [if_neg h2, if_neg hc]
      exact (map_add_zero_mod B hB j).symm

theorem LUT_getElem? (CH B : List Nat) (id j : Nat) :
    (LUT CH B id)[j]? =
      if j = id then
        Option.map (fun x => ((CH[id]?).bind fun c => (CH[bins - 1]?).bind fun t =>
          if t = 0 then none else some (min (roundHalfUp (c * maxOutput) t) maxOutput)).getD x) B[j]?
      else B[j]? := by
  unfold LUT
  cases hc : CH[id]? with
  | none => by_cases hji : j = id <;> simp [hji]
  | some c =>
    cases ht : CH[bins - 1]? with
    | none => by_cases hji : j = id <;> simp [hji]
    | some t =>
      by_cases ht0 : t = 0
      · by_cases hji : j = id <;> simp [hji, ht0]
      · by_cases hji : j = id
        · subst hji
          cases hB : B[j]? with
          | none =>
            have : B.length ≤ j := List.getElem?_eq_none_iff.1 hB
            simp [ht0, List.getElem?_set, hB, Nat.not_lt.2 this]
          | some x =>
            have : j < B.length := (List.getElem?_eq_some.1 hB).1
            simp [ht0, List.getElem?_set, this]
        · have hij : id ≠ j := fun h => hji h.symm
          simp [hji, ht0, List.getElem?_set_ne hij]

theorem ReProject_getElem? (A L B : List Nat) (id j : Nat) :
    (ReProject A L B id)[j]? =
      if j = id then
        Option.map (fun x => ((A[id]?).bind fun v => (L[v]?).map fun y => y % 256).getD x) B[j]?
      else B[j]? := by
  unfold ReProject
  cases hA : A[id]? with
  | none => by_cases hji : j = id <;> simp [hji]
  | some v =>
    cases hL : L[v]? with
    | none => by_cases hji : j = id <;> simp [hji, hL]
    | some y =>
      by_cases hji : j = id
      · subst hji
        cases hB : B[j]? with
        | none =>
          have : B.length ≤ j := List.getElem?_eq_none_iff.1 hB
          simp [hL, List.getElem?_set, hB, Nat.not_lt.2 this]
        | some x =>
          have : j < B.length := (List.getElem?_eq_some.1 hB).1
          simp [hL, List.getElem?_set, this]
      · have hij : id ≠ j := fun h => hji h.symm
        simp [hji, hL, List.getElem?_set_ne hij]


/-! ## Whole dispatches -/

theorem sum_indicator_eq_count (A : List Nat) (j : Nat) :
    (A.map (fun a => if a = j then 1 else 0)).sum = A.count j := by
  induction A with
  | nil => rfl
  | cons a A ih =>
    by_cases h : a = j
    · subst h; simp [ih]; omega
    · simp [List.count_cons, h, ih]

theorem map_range_getElem? (A : List Nat) (g : Option Nat → Nat) :
    (List.range A.length).map (fun id => g A[id]?) = A.map (fun a => g (some a)) := by
  apply List.ext_getElem
  · simp
  · intro i h1 h2
    simp at h1
    simp [List.getElem?_eq_getElem h1]

theorem sum_range_indicator (A : List Nat) (j : Nat) :
    ((List.range A.length).map (fun id => if A[id]? = some j then 1 else 0)).sum = A.count j := by
  rw [map_range_getElem? A (fun o => if o = some j then 1 else 0)]
  simpa using sum_indicator_eq_count A j

theorem sum_range_getD (H : List Nat) : ∀ k : Nat,
    ((List.range k).map (fun id => H.getD id 0)).sum = (H.take k).sum := by
  intro k
  induction k with
  | zero => simp
  | succ k ih =>
    rw [List.range_succ, List.map_append, List.sum_append, ih, List.take_succ, List.sum_append]
    cases hk : H[k]? <;> simp [List.getD_eq_getElem?_getD, hk]

theorem sum_range_ite_le (F : Nat → Nat) (j : Nat) : ∀ g : Nat, j < g →
    ((List.range g).map (fun id => if id ≤ j then F id else 0)).sum =
      ((List.range (j + 1)).map F).sum := by
  intro g
  induction g with
  | zero => intro h; omega
  | succ g ih =>
    intro h
    rw [List.range_succ, List.map_append, List.sum_append]
    by_cases hjg : j < g
    · have : ¬ g ≤ j := by omega
      simp [ih hjg, this]
    · have hjg2 : j = g := by omega
      subst hjg2
      have hmap : (List.range j).map (fun id => if id ≤ j then F id else 0) = (List.range j).map F := by
        apply List.map_congr_left
        intro a ha
        have : a < j := List.mem_range.1 ha
        simp [Nat.le_of_lt this]
      rw [hmap, List.range_succ, List.map_append, List.sum_append]
      simp

theorem dispatch_hist_simple (A : List Nat) (order : List Nat)
    (hperm : order.Perm (List.range A.length)) :
    order.foldl (hist_simple A) (List.replicate bins 0) =
      (List.range bins).map (fun v => A.count v % 2 ^ 32) := by
  have hz : ∀ x ∈ List.replicate bins 0, x < 2 ^ 32 := by
    intro x hx
    rw [List.eq_of_mem_replicate hx]
    norm_num
  apply List.ext_getElem?
  intro j
  rw [foldl_adder (hist_simple A) (fun id j => if A[id]? = some j then 1 else 0)
    (fun B id hB j => hist_simple_getElem? A B id hB j) order _ hz j]
  rw [(hperm.map _).sum_eq, sum_range_indicator]
  by_cases hj : j < bins
  · simp [hj, List.getElem?_range hj]
  · have h1 : (List.replicate bins 0)[j]? = none :=
      List.getElem?_eq_none (by rw [List.length_replicate]; omega)
    have h2 : (List.range bins)[j]? = none :=
      List.getElem?_eq_none (by rw [List.length_range]; omega)
    rw [h1, List.getElem?_map, h2]
    rfl

theorem dispatch_hist_cum (H : List Nat) (order : List Nat) (g : Nat) (hg : bins ≤ g)
    (hperm : order.Perm (List.range g)) :
    order.foldl (hist_cum H) (List.replicate bins 0) =
      (List.range bins).map (fun i => (H.take (i + 1)).sum % 2 ^ 32) := by
  have hz : ∀ x ∈ List.replicate bins 0, x < 2 ^ 32 := by
    intro x hx
    rw [List.eq_of_mem_replicate hx]
    norm_num
  apply List.ext_getElem?
  intro j
  rw [foldl_adder (hist_cum H) (fun id j => if id ≤ j ∧ j < bins then H.getD id 0 else 0)
    (fun B id hB j => hist_cum_getElem? H B id hB j) order _ hz j]
  rw [(hperm.map _).sum_eq]
  by_cases hj : j < bins
  · have hjg : j < g := by omega
    have e : (List.range g).map (fun id => if id ≤ j ∧ j < bins then H.getD id 0 else 0) =
        (List.range g).map (fun id => if id ≤ j then H.getD id 0 else 0) := by
      apply List.map_congr_left
      intro a _
      simp [hj]
    rw [e, sum_range_ite_le (fun id => H.getD id 0) j g hjg, sum_range_getD]
    simp [hj, List.getElem?_range hj]
  · have h1 : (List.replicate bins 0)[j]? = none :=
      List.getElem?_eq_none (by rw [List.length_replicate]; omega)
    have h2 : (List.range bins)[j]? = none :=
      List.getElem?_eq_none (by rw [List.length_range]; omega)
    rw [h1, List.getElem?_map, h2]
    rfl

theorem dispatch_LUT (CH L0 : List Nat) (order : List Nat) (g totalPixels : Nat) (hg : bins ≤ g)
    (hperm : order.Perm (List.range g)) (hCH : CH.length = bins) (hL : L0.length = bins)
    (ht : CH[bins - 1]? = some totalPixels) (hpos : totalPixels ≠ 0) :
    order.foldl (LUT CH) L0 =
      (List.range bins).map
        (fun i => min (roundHalfUp (CH.getD i 0 * maxOutput) totalPixels) maxOutput) := by
  apply List.ext_getElem?
  intro j
  rw [foldl_writer (LUT CH) _ (fun B id j => LUT_getElem? CH B id j) order L0 j]
  by_cases hj : j < bins
  · have hmem : j ∈ order := (hperm.mem_iff).2 (List.mem_range.2 (by omega))
    have hjC : j < CH.length := by omega
    have hjL : j < L0.length := by omega
    simp [hmem, ht, hpos, List.getElem?_range hj, List.getElem?_eq_getElem hjC,
      List.getElem?_eq_getElem hjL]
  · have hjL : L0.length ≤ j := by omega
    have h2 : (List.range bins)[j]? = none :=
      List.getElem?_eq_none (by rw [List.length_range]; omega)
    simp [List.getElem?_eq_none hjL, h2]

theorem dispatch_LUT_zero (CH L0 : List Nat) (order : List Nat)
    (ht : CH[bins - 1]? = some 0) :
    order.foldl (LUT CH) L0 = L0 := by
  apply List.ext_getElem?
  intro j
  rw [foldl_writer (LUT CH) _ (fun B id j => LUT_getElem? CH B id j) order L0 j]
  by_cases hmem : j ∈ order
  · cases hc : CH[j]? <;> cases hB : L0[j]? <;> simp [hmem, ht, hc]
  · simp [hmem]

theorem dispatch_ReProject (A L B0 : List Nat) (order : List Nat)
    (hperm : order.Perm (List.range A.length)) (hB : B0.length = A.length)
    (hA : ∀ v ∈ A, v < L.length) :
    order.foldl (ReProject A L) B0 = A.map (fun v => L.getD v 0 % 256) := by
  apply List.ext_getElem?
  intro j
  rw [foldl_writer (ReProject A L) _ (fun B id j => ReProject_getElem? A L B id j) order B0 j]
  by_cases hj : j < A.length
  · have hmem : j ∈ order := (hperm.mem_iff).2 (List.mem_range.2 hj)
    have hjB : j < B0.length := by omega
    have hv : A[j] < L.length := hA _ (List.getElem_mem _)
    simp [hmem, List.getElem?_eq_getElem hj, List.getElem?_eq_getElem hjB,
      List.getElem?_eq_getElem hv]
  · have hjB : B0.length ≤ j := by omega
    have hjA : A.length ≤ j := by omega
    simp [List.getElem?_eq_none hjB, List.getElem?_eq_none hjA]


/-! ## Running the program -/

theorem runSteps_noRaise (env : Env) (img : Image) (h : env.NoRaise) (p : List Step) :
    ∀ (i : Nat) (w : World), runSteps env img i p w = (p.foldl (exec env img) w, none) := by
  induction p with
  | nil => intro i w; rfl
  | cons s rest ih =>
    intro i w
    simp only [runSteps, h i, ite_self, List.foldl_cons]
    exact ih (i + 1) _

theorem fill_zero (es : Nat) (old : List Nat) (bytes : Nat) (h : old.length ≤ bytes / es) :
    fill es old 0 0 bytes = List.replicate old.length 0 := by
  apply List.ext_getElem
  · simp [fill]
  · intro i h1 h2
    simp [fill] at h1 ⊢
    omega

theorem overlay_full (old new : List Nat) (h : new.length = old.length) :
    overlay old 0 new = new := by
  apply List.ext_getElem
  · simp [overlay, h]
  · intro i h1 h2
    simp [overlay] at h1 ⊢
    simp [List.getElem?_eq_getElem h2]

theorem length_devHistogram (env : Env) (img : Image) : (devHistogram env img).length = bins := by
  unfold devHistogram
  rw [length_foldl _ (length_hist_simple img.data), List.length_replicate]

theorem length_devCumulative (env : Env) (img : Image) : (devCumulative env img).length = bins := by
  unfold devCumulative
  rw [length_foldl _ (length_hist_cum _), List.length_replicate]

theorem length_devLUT (env : Env) (img : Image) : (devLUT env img).length = bins := by
  unfold devLUT
  rw [length_foldl _ (length_LUT _), List.length_replicate]

theorem length_devOutput (env : Env) (img : Image) : (devOutput env img).length = img.size := by
  unfold devOutput
  rw [length_foldl _ (length_ReProject _ _)]
  simp

theorem decode_int (b : Buf) (h : b.elemBytes = sizeofMytype) : b.decode = toInt32 := by
  funext x
  unfold Buf.decode
  rw [h]
  rfl

theorem decode_byte (b : Buf) (h : b.elemBytes = 1) :
    b.decode = fun x => ((x % 256 : Nat) : Int) := by
  funext x
  unfold Buf.decode
  rw [h]
  rfl

theorem final_world (env : Env) (img : Image) (hno : env.NoRaise)
    (hlen : img.data.length = img.size) :
    (main env img).world.host .H = (devHistogram env img).map toInt32 ∧
    (main env img).world.host .CH = (devCumulative env img).map toInt32 ∧
    (main env img).world.host .LUT = (devLUT env img).map toInt32 ∧
    (main env img).world.host .output_buffer =
      (devOutput env img).map (fun x => ((x % 256 : Nat) : Int)) := by
  have e1 : histsize / sizeofMytype = bins := by decide
  have e2 : (0 + histsize) / sizeofMytype = bins := by decide
  have htake : img.data.take img.size = img.data := List.take_of_length_le (by omega)
  have d1 := decode_int .dev_histogram_output rfl
  have d2 := decode_int .dev_cumulative_histogram_output rfl
  have d3 := decode_int .dev_LUT_output rfl
  have d4 := decode_byte .dev_image_output rfl
  have l1 := length_devHistogram env img
  have l2 := length_devCumulative env img
  have l3 := length_devLUT env img
  have l4 := length_devOutput env img
  unfold devHistogram at l1
  unfold devCumulative devHistogram at l2
  unfold devLUT devCumulative devHistogram at l3
  unfold devOutput devLUT devCumulative devHistogram at l4
  simp [main, runSteps_noRaise env img hno, handler, hostProgram, setup, allocation, stageA, stageB, stageC, stageD, report,
    exec, effect, launch, argOf, World.init, Buf.elemBytes, e1, e2, fill_zero, overlay_full, hlen,
    devHistogram, devCumulative, devLUT, devOutput, Function.update, d1, d2, d3, d4, l1, l2, l3, l4, htake]


/-! ## Counting -/

theorem countP_lt_succ (A : List Nat) (k : Nat) :
    A.countP (fun x => decide (x < k + 1)) = A.countP (fun x => decide (x < k)) + A.count k := by
  induction A with
  | nil => rfl
  | cons a A ih =>
    simp only [List.countP_cons, List.count_cons, decide_eq_true_eq, beq_iff_eq, ih]
    by_cases h1 : a < k
    · have h2 : a < k + 1 := by omega
      have h3 : ¬ a = k := by omega
      rw [if_pos h1, if_pos h2, if_neg h3]
      omega
    · by_cases h3 : a = k
      · have h2 : a < k + 1 := by omega
        rw [if_neg h1, if_pos h2, if_pos h3]
        omega
      · have h2 : ¬ a < k + 1 := by omega
        rw [if_neg h1, if_neg h2, if_neg h3]
        omega

theorem sum_count_range (A : List Nat) : ∀ k : Nat,
    ((List.range k).map (fun v => A.count v)).sum = A.countP (fun x => decide (x < k)) := by
  intro k
  induction k with
  | zero =>
    have : A.countP (fun x => decide (x < 0)) = 0 := by
      rw [List.countP_eq_zero]
      intro a _
      simp
    simp [this]
  | succ k ih =>
    rw [List.range_succ, List.map_append, List.sum_append, ih, countP_lt_succ]
    simp

theorem sum_map_mod (f : Nat → Nat) (l : List Nat) :
    (l.map (fun v => f v % 2 ^ 32)).sum % 2 ^ 32 = (l.map f).sum % 2 ^ 32 := by
  induction l with
  | nil => rfl
  | cons a l ih =>
    simp only [List.map_cons, List.sum_cons]
    omega

theorem countP_lt_le_length (A : List Nat) (k : Nat) :
    A.countP (fun x => decide (x < k)) ≤ A.length :=
  List.countP_le_length _

theorem countP_lt_mono (A : List Nat) (a b : Nat) (h : a ≤ b) :
    A.countP (fun x => decide (x < a)) ≤ A.countP (fun x => decide (x < b)) := by
  apply List.countP_mono_left
  intro x _ hx
  simp only [decide_eq_true_eq] at hx ⊢
  omega

theorem countP_lt_all (A : List Nat) (k : Nat) (h : ∀ x ∈ A, x < k) :
    A.countP (fun x => decide (x < k)) = A.length := by
  rw [List.countP_eq_length]
  intro a ha
  simpa using h a ha

theorem toInt32_of_lt (x : Nat) (h : x < 2 ^ 31) : toInt32 x = (x : Int) := by
  unfold toInt32
  have h2 : x % 2 ^ 32 = x := Nat.mod_eq_of_lt (by omega)
  rw [h2, if_pos h]

/-! ## Closed forms of the device buffers -/

theorem devHistogram_eq (env : Env) (img : Image) (hfair : env.Fair)
    (hlen : img.data.length = img.size) :
    devHistogram env img = (List.range bins).map (fun v => img.data.count v % 2 ^ 32) := by
  unfold devHistogram
  apply dispatch_hist_simple
  rw [hlen]
  exact hfair _ _

theorem devCumulative_eq (env : Env) (img : Image) (hfair : env.Fair)
    (hlen : img.data.length = img.size) :
    devCumulative env img =
      (List.range bins).map (fun i => img.data.countP (fun x => decide (x < i + 1)) % 2 ^ 32) := by
  unfold devCumulative
  rw [dispatch_hist_cum _ _ histsize (by decide) (hfair _ _), devHistogram_eq env img hfair hlen]
  apply List.map_congr_left
  intro i hi
  have hi2 : i < bins := List.mem_range.1 hi
  have hmin : min (i + 1) bins = i + 1 := by omega
  rw [← List.map_take, List.take_range, hmin, sum_map_mod, sum_count_range]


/-! ## Stage (a): histogram -/

theorem seqEnv_fair : seqEnv.Fair := fun _ _ => List.Perm.refl _

theorem seqEnv_noRaise : seqEnv.NoRaise := fun _ => rfl

theorem revEnv_fair : revEnv.Fair := fun _ g => List.reverse_perm (List.range g)

theorem revEnv_noRaise : revEnv.NoRaise := fun _ => rfl

theorem quiet_fair (env : Env) (h : env.Fair) : env.quiet.Fair := fun k g => h k g

theorem quiet_noRaise (env : Env) : env.quiet.NoRaise := fun _ => rfl

theorem img4_wellFormed : img4.WellFormed := by
  constructor
  · rfl
  · intro x hx
    simp only [img4, List.mem_cons, List.mem_singleton, List.not_mem_nil, or_false] at hx
    omega

theorem host_H_eq (env : Env) (img : Image) (hfair : env.Fair) (hno : env.NoRaise)
    (hlen : img.data.length = img.size) :
    (main env img).world.host .H =
      (List.range bins).map (fun v => toInt32 (img.data.count v % 2 ^ 32)) := by
  rw [(final_world env img hno hlen).1, devHistogram_eq env img hfair hlen, List.map_map]
  rfl

theorem host_CH_eq (env : Env) (img : Image) (hfair : env.Fair) (hno : env.NoRaise)
    (hlen : img.data.length = img.size) :
    (main env img).world.host .CH =
      (List.range bins).map
        (fun i => toInt32 (img.data.countP (fun x => decide (x < i + 1)) % 2 ^ 32)) := by
  rw [(final_world env img hno hlen).2.1, devCumulative_eq env img hfair hlen, List.map_map]
  rfl

/-- C1 (amended): for every image with pixels in 0..255 in which no value occurs
2^31 times or more, on a device that runs every work item once and raises
nothing, the histogram `H` read back after the `hist_simple` stage holds in
entry `v` the number of pixels of value `v`, and the entries add up to the
pixel count. -/
theorem hist_simple_counts_pixels (env : Env) (img : Image) (hfair : env.Fair)
    (hno : env.NoRaise) (hwf : img.WellFormed) (hcount : ∀ v, img.data.count v < 2 ^ 31) :
    (main env img).world.host .H = (List.range bins).map (fun v => (img.data.count v : Int)) ∧
    ((main env img).world.host .H).sum = (img.size : Int) := by
  have hH : (main env img).world.host .H =
      (List.range bins).map (fun v => (img.data.count v : Int)) := by
    rw [host_H_eq env img hfair hno hwf.1]
    apply List.map_congr_left
    intro v _
    have h2 := hcount v
    rw [Nat.mod_eq_of_lt (by omega), toInt32_of_lt _ h2]
  refine ⟨hH, ?_⟩
  rw [hH]
  have hsum : ((List.range bins).map (fun v => img.data.count v)).sum = img.size := by
    rw [sum_count_range, countP_lt_all img.data bins hwf.2, hwf.1]
  rw [← hsum, Nat.cast_list_sum, List.map_map]
  rfl

theorem img4_count_lt : ∀ v, img4.data.count v < 2 ^ 31 := by
  intro v
  have h : img4.data.count v ≤ img4.data.length := List.count_le_length _ _
  have h4 : img4.data.length = 4 := rfl
  omega

/-- Witness for C1: the 2x2 image of scenario A on a device running work items
in decreasing order. -/
theorem hist_simple_counts_pixels_witness :
    revEnv.Fair ∧ revEnv.NoRaise ∧ img4.WellFormed ∧ (∀ v, img4.data.count v < 2 ^ 31) ∧
    ((main revEnv img4).world.host .H =
        (List.range bins).map (fun v => (img4.data.count v : Int)) ∧
      ((main revEnv img4).world.host .H).sum = (img4.size : Int)) :=
  ⟨revEnv_fair, revEnv_noRaise, img4_wellFormed, img4_count_lt,
    hist_simple_counts_pixels revEnv img4 revEnv_fair revEnv_noRaise img4_wellFormed
      img4_count_lt⟩

/-- C1 as stated fails: for the 65536 x 32768 image whose 2^31 pixels are all 0,
the entry `H[0]` read back is -2147483648, not the number 2147483648 of pixels
of value 0. -/
theorem hist_simple_wraps_at_two_pow_31 :
    ((main seqEnv (uniformImage 65536 32768 0)).world.host .H)[0]? = some (-2147483648) ∧
    (uniformImage 65536 32768 0).data.count 0 = 2147483648 := by
  have hlen : (uniformImage 65536 32768 0).data.length = (uniformImage 65536 32768 0).size := by
    show (List.replicate (65536 * 32768) 0).length = 65536 * 32768 * 1 * 1
    rw [List.length_replicate]
  have hcount : (uniformImage 65536 32768 0).data.count 0 = 2147483648 := by
    show List.count 0 (List.replicate (65536 * 32768) 0) = 2147483648
    rw [List.count_replicate_self]
  refine ⟨?_, hcount⟩
  rw [host_H_eq seqEnv _ seqEnv_fair seqEnv_noRaise hlen, List.getElem?_map,
    List.getElem?_range (by decide), Option.map_some', hcount]
  rfl

/-! ## Stage (b): cumulative histogram -/

theorem host_CH_of_lt (env : Env) (img : Image) (hfair : env.Fair) (hno : env.NoRaise)
    (hlen : img.data.length = img.size) (hN : img.size < 2 ^ 31) :
    (main env img).world.host .CH =
      (List.range bins).map
        (fun i => ((img.data.countP (fun x => decide (x < i + 1)) : Nat) : Int)) := by
  rw [host_CH_eq env img hfair hno hlen]
  apply List.map_congr_left
  intro i _
  have h1 := countP_lt_le_length img.data (i + 1)
  have h2 : img.data.countP (fun x => decide (x < i + 1)) < 2 ^ 31 := by rw [hlen] at h1; omega
  rw [Nat.mod_eq_of_lt (by omega), toInt32_of_lt _ h2]

theorem host_H_of_lt (env : Env) (img : Image) (hfair : env.Fair) (hno : env.NoRaise)
    (hlen : img.data.length = img.size) (hN : img.size < 2 ^ 31) :
    (main env img).world.host .H =
      (List.range bins).map (fun v => ((img.data.count v : Nat) : Int)) := by
  rw [host_H_eq env img hfair hno hlen]
  apply List.map_congr_left
  intro v _
  have h1 : img.data.count v ≤ img.data.length := List.count_le_length _ _
  have h2 : img.data.count v < 2 ^ 31 := by rw [hlen] at h1; omega
  rw [Nat.mod_eq_of_lt (by omega), toInt32_of_lt _ h2]

/-- C2 (amended): for every image of fewer than 2^31 pixels, each in 0..255, on a
device that runs every work item once and raises nothing, the cumulative
histogram `CH` read back after the `hist_cum` stage is the inclusive running
sum of the histogram `H` read back after stage (a); `CH` is non-decreasing and
its last entry is the pixel count. -/
theorem hist_cum_running_sum (env : Env) (img : Image) (hfair : env.Fair)
    (hno : env.NoRaise) (hwf : img.WellFormed) (hN : img.size < 2 ^ 31) :
    (main env img).world.host .CH =
      (List.range bins).map (fun i => (((main env img).world.host .H).take (i + 1)).sum) ∧
    ((main env img).world.host .CH).Pairwise (fun a b => a ≤ b) ∧
    ((main env img).world.host .CH)[bins - 1]? = some (img.size : Int) := by
  have hCH := host_CH_of_lt env img hfair hno hwf.1 hN
  have hH := host_H_of_lt env img hfair hno hwf.1 hN
  refine ⟨?_, ?_, ?_⟩
  · rw [hCH, hH]
    apply List.map_congr_left
    intro i hi
    have hi2 : i < bins := List.mem_range.1 hi
    have hmin : min (i + 1) bins = i + 1 := by omega
    rw [← List.map_take, List.take_range, hmin, ← sum_count_range, Nat.cast_list_sum,
      List.map_map]
    rfl
  · rw [hCH, List.pairwise_map]
    refine (List.pairwise_lt_range bins).imp ?_
    intro a b hab
    exact Int.ofNat_le.2 (countP_lt_mono img.data (a + 1) (b + 1) (by omega))
  · rw [hCH, List.getElem?_map, List.getElem?_range (by decide), Option.map_some']
    have : bins - 1 + 1 = bins := by decide
    rw [this, countP_lt_all img.data bins hwf.2, hwf.1]

/-- Witness for C2: the 2x2 image of scenario A, work items in index order. -/
theorem hist_cum_running_sum_witness :
    seqEnv.Fair ∧ seqEnv.NoRaise ∧ img4.WellFormed ∧ img4.size < 2 ^ 31 ∧
    ((main seqEnv img4).world.host .CH =
        (List.range bins).map (fun i => (((main seqEnv img4).world.host .H).take (i + 1)).sum) ∧
      ((main seqEnv img4).world.host .CH).Pairwise (fun a b => a ≤ b) ∧
      ((main seqEnv img4).world.host .CH)[bins - 1]? = some (img4.size : Int)) :=
  ⟨seqEnv_fair, seqEnv_noRaise, img4_wellFormed, by decide,
    hist_cum_running_sum seqEnv img4 seqEnv_fair seqEnv_noRaise img4_wellFormed (by decide)⟩

/-- C2 as stated fails: for the 32768 x 32768 x 2 image with 2^30 pixels of value
0 followed by 2^30 pixels of value 1, the histogram read back is exact
(`H[0] = H[1] = 2^30`), yet `CH[1]` is -2147483648 instead of `H[0] + H[1]`,
`CH` decreases from `CH[0]` to `CH[1]`, and `CH[255]` is not the pixel count. -/
theorem hist_cum_wraps_at_two_pow_31 :
    ((main seqEnv (twoToneImage 32768 32768)).world.host .H)[0]? = some 1073741824 ∧
    ((main seqEnv (twoToneImage 32768 32768)).world.host .H)[1]? = some 1073741824 ∧
    ((main seqEnv (twoToneImage 32768 32768)).world.host .CH)[0]? = some 1073741824 ∧
    ((main seqEnv (twoToneImage 32768 32768)).world.host .CH)[1]? = some (-2147483648) ∧
    ((main seqEnv (twoToneImage 32768 32768)).world.host .CH)[255]? = some (-2147483648) ∧
    (twoToneImage 32768 32768).size = 2147483648 := by
  have hlen : (twoToneImage 32768 32768).data.length = (twoToneImage 32768 32768).size := by
    show (List.replicate (32768 * 32768) 0 ++ List.replicate (32768 * 32768) 1).length =
      32768 * 32768 * 2 * 1
    rw [List.length_append, List.length_replicate, List.length_replicate]
  have hc : ∀ v : Nat, (twoToneImage 32768 32768).data.count v =
      (if v = 0 then 1073741824 else 0) + (if v = 1 then 1073741824 else 0) := by
    intro v
    show List.count v (List.replicate (32768 * 32768) 0 ++ List.replicate (32768 * 32768) 1) = _
    rw [List.count_append, List.count_replicate, List.count_replicate]
    by_cases h0 : v = 0
    · subst h0; rfl
    · by_cases h1 : v = 1
      · subst h1; rfl
      · have e0 : ((0 : Nat) == v) = false := by simpa using fun h => h0 h.symm
        have e1 : ((1 : Nat) == v) = false := by simpa using fun h => h1 h.symm
        simp [e0, e1, h0, h1]
  have hp : ∀ k : Nat, (twoToneImage 32768 32768).data.countP (fun x => decide (x < k)) =
      (if 0 < k then 1073741824 else 0) + (if 1 < k then 1073741824 else 0) := by
    intro k
    show List.countP (fun x => decide (x < k))
      (List.replicate (32768 * 32768) 0 ++ List.replicate (32768 * 32768) 1) = _
    rw [List.countP_append, List.countP_replicate, List.countP_replicate]
    simp only [decide_eq_true_eq]
  have hH := host_H_eq seqEnv _ seqEnv_fair seqEnv_noRaise hlen
  have hCH := host_CH_eq seqEnv _ seqEnv_fair seqEnv_noRaise hlen
  refine ⟨?_, ?_, ?_, ?_, ?_, rfl⟩
  · rw [hH, List.getElem?_map, List.getElem?_range (by decide), Option.map_some', hc]; rfl
  · rw [hH, List.getElem?_map, List.getElem?_range (by decide), Option.map_some', hc]; rfl
  · rw [hCH, List.getElem?_map, List.getElem?_range (by decide), Option.map_some', hp]; rfl
  · rw [hCH, List.getElem?_map, List.getElem?_range (by decide), Option.map_some', hp]; rfl
  · rw [hCH, List.getElem?_map, List.getElem?_range (by decide), Option.map_some', hp]; rfl

/-! ## Stage (c): lookup table -/

theorem roundHalfUp_eq_round (num den : Nat) (hden : 0 < den) :
    ((roundHalfUp num den : Nat) : Int) = round ((num : ℚ) / den) := by
  have hd : (den : ℚ) ≠ 0 := by exact_mod_cast hden.ne'
  have e : (num : ℚ) / den + 1 / 2 = ((2 * num + den : Nat) : ℚ) / ((2 * den : Nat) : ℚ) := by
    push_cast
    field_simp
    ring
  rw [round_eq, e, Rat.floor_natCast_div_natCast]
  rfl

theorem clamp_cast (r : Nat) : ((min r maxOutput : Nat) : Int) = max 0 (min 255 (r : Int)) := by
  unfold maxOutput
  rcases Nat.le_total r 255 with h | h
  · have h2 : (r : Int) ≤ 255 := by exact_mod_cast h
    rw [Nat.min_eq_left h, min_eq_right h2, max_eq_right (Int.ofNat_nonneg _)]
  · have h2 : (255 : Int) ≤ r := by exact_mod_cast h
    rw [Nat.min_eq_right h, min_eq_left h2]
    rfl

theorem roundHalfUp_mono (a b den : Nat) (h : a ≤ b) : roundHalfUp a den ≤ roundHalfUp b den := by
  unfold roundHalfUp
  exact Nat.div_le_div_right (by omega)

theorem getD_le_of_pairwise (l : List Nat) (h : l.Pairwise (fun a b => a ≤ b)) (i j : Nat)
    (hij : i ≤ j) (hj : j < l.length) : l.getD i 0 ≤ l.getD j 0 := by
  have hi : i < l.length := by omega
  rw [List.getD_eq_getElem?_getD, List.getD_eq_getElem?_getD, List.getElem?_eq_getElem hi,
    List.getElem?_eq_getElem hj]
  simp only [Option.getD_some]
  rcases Nat.eq_or_lt_of_le hij with heq | hlt
  · subst heq; exact Nat.le_refl _
  · exact (List.pairwise_iff_get.1 h) ⟨i, hi⟩ ⟨j, hj⟩ hlt

theorem stageC_host_LUT (env : Env) (img : Image) (w : World)
    (hL : (w.mem .dev_LUT_output).length = bins) :
    (stageC.foldl (exec env img) w).host .LUT =
      ((env.schedule .LUT histsize).foldl (LUT (w.mem .dev_cumulative_histogram_output))
        (List.replicate bins 0)).map toInt32 := by
  have e2 : (0 + histsize) / sizeofMytype = bins := by decide
  have e1 : histsize / sizeofMytype = bins := by decide
  have d3 := decode_int .dev_LUT_output rfl
  have l3 : ((env.schedule .LUT histsize).foldl (LUT (w.mem .dev_cumulative_histogram_output))
      (List.replicate bins 0)).length = bins := by
    rw [length_foldl _ (length_LUT _), List.length_replicate]
  simp [stageC, exec, effect, launch, argOf, Buf.elemBytes, e1, e2, fill_zero, hL,
    Function.update, d3, l3]

theorem toInt32_min_255 (x : Nat) : toInt32 (min x maxOutput) = ((min x maxOutput : Nat) : Int) := by
  apply toInt32_of_lt
  have : min x maxOutput ≤ 255 := Nat.min_le_right _ _
  omega

theorem host_LUT_of_stageC (env : Env) (img : Image) (w : World) (CH : List Nat)
    (totalPixels : Nat) (hfair : env.Fair)
    (hCH : w.mem .dev_cumulative_histogram_output = CH) (hlen : CH.length = bins)
    (hL : (w.mem .dev_LUT_output).length = bins)
    (hlast : CH[bins - 1]? = some totalPixels) (hpos : 0 < totalPixels) :
    (stageC.foldl (exec env img) w).host .LUT =
      (List.range bins).map (fun i =>
        ((min (roundHalfUp (CH.getD i 0 * maxOutput) totalPixels) maxOutput : Nat) : Int)) := by
  rw [stageC_host_LUT env img w hL, hCH,
    dispatch_LUT CH _ _ histsize totalPixels (by decide) (hfair _ _) hlen
      (List.length_replicate _ _) hlast (by omega), List.map_map]
  apply List.map_congr_left
  intro i _
  exact toInt32_min_255 _

theorem devCumulative_getD (env : Env) (img : Image) (hfair : env.Fair)
    (hlen : img.data.length = img.size) (i : Nat) (hi : i < bins) :
    (devCumulative env img).getD i 0 =
      img.data.countP (fun x => decide (x < i + 1)) % 2 ^ 32 := by
  rw [devCumulative_eq env img hfair hlen, List.getD_eq_getElem?_getD, List.getElem?_map,
    List.getElem?_range hi]
  rfl

theorem devCumulative_last (env : Env) (img : Image) (hfair : env.Fair)
    (hlen : img.data.length = img.size) :
    (devCumulative env img)[bins - 1]? =
      some (img.data.countP (fun x => decide (x < bins)) % 2 ^ 32) := by
  rw [devCumulative_eq env img hfair hlen, List.getElem?_map, List.getElem?_range (by decide)]
  rfl

theorem devLUT_eq (env : Env) (img : Image) (hfair : env.Fair)
    (hlen : img.data.length = img.size)
    (hpos : img.data.countP (fun x => decide (x < bins)) % 2 ^ 32 ≠ 0) :
    devLUT env img =
      (List.range bins).map (fun i =>
        min (roundHalfUp ((devCumulative env img).getD i 0 * maxOutput)
          (img.data.countP (fun x => decide (x < bins)) % 2 ^ 32)) maxOutput) := by
  unfold devLUT
  exact dispatch_LUT _ _ _ histsize _ (by decide) (hfair _ _) (length_devCumulative env img)
    (List.length_replicate _ _) (devCumulative_last env img hfair hlen) hpos

theorem devLUT_zero (env : Env) (img : Image) (hfair : env.Fair)
    (hlen : img.data.length = img.size)
    (hzero : img.data.countP (fun x => decide (x < bins)) % 2 ^ 32 = 0) :
    devLUT env img = List.replicate bins 0 := by
  unfold devLUT
  apply dispatch_LUT_zero
  rw [devCumulative_last env img hfair hlen, hzero]

theorem devLUT_le (env : Env) (img : Image) (hfair : env.Fair)
    (hlen : img.data.length = img.size) : ∀ y ∈ devLUT env img, y ≤ maxOutput := by
  intro y hy
  by_cases hz : img.data.countP (fun x => decide (x < bins)) % 2 ^ 32 = 0
  · rw [devLUT_zero env img hfair hlen hz] at hy
    rw [List.eq_of_mem_replicate hy]
    exact Nat.zero_le _
  · rw [devLUT_eq env img hfair hlen hz] at hy
    obtain ⟨i, _, rfl⟩ := List.mem_map.1 hy
    exact Nat.min_le_right _ _

theorem host_LUT_img4 (env : Env) (hfair : env.Fair) (hno : env.NoRaise) (i : Nat)
    (hi : i < bins) :
    ((main env img4).world.host .LUT)[i]? =
      some (toInt32 (min (roundHalfUp
        (img4.data.countP (fun x => decide (x < i + 1)) % 2 ^ 32 * maxOutput) 4) maxOutput)) := by
  have hlen : img4.data.length = img4.size := rfl
  have hpos : img4.data.countP (fun x => decide (x < bins)) % 2 ^ 32 ≠ 0 := by decide
  rw [(final_world env img4 hno hlen).2.2.1, devLUT_eq env img4 hfair hlen hpos, List.map_map,
    List.getElem?_map, List.getElem?_range hi]
  simp only [Option.map_some', Function.comp_apply]
  rw [devCumulative_getD env img4 hfair hlen i hi]
  rfl

/-- C3: on a device that runs every work item once, for every cumulative
histogram `CH` (256 non-decreasing counters whose last entry is the pixel count
`totalPixels > 0`) held by the cumulative buffer, the lookup table read back
after the LUT stage (lines 131-143) has
`LUT[i] = round(CH[i] * 255 / totalPixels)` clamped to `[0,255]`, halves rounded
upwards; every entry lies in `[0,255]` and the table is non-decreasing.  For the
2x2 image `[10,10,200,200]` the run in which no call raises yields
`LUT[10] = 128` and `LUT[200] = 255`. -/
theorem LUT_stage_normalises (env : Env) (img : Image) (w : World) (CH : List Nat)
    (totalPixels : Nat) (hfair : env.Fair)
    (hCH : w.mem .dev_cumulative_histogram_output = CH) (hlen : CH.length = bins)
    (hL : (w.mem .dev_LUT_output).length = bins)
    (hmono : CH.Pairwise (fun a b => a ≤ b)) (hlast : CH[bins - 1]? = some totalPixels)
    (hpos : 0 < totalPixels) :
    ((stageC.foldl (exec env img) w).host .LUT =
        (List.range bins).map (fun i =>
          max 0 (min 255 (round ((CH.getD i 0 : ℚ) * 255 / totalPixels)))) ∧
      (∀ y ∈ (stageC.foldl (exec env img) w).host .LUT, 0 ≤ y ∧ y ≤ 255) ∧
      ((stageC.foldl (exec env img) w).host .LUT).Pairwise (fun a b => a ≤ b)) ∧
    ((main env.quiet img4).world.host .LUT)[10]? = some 128 ∧
    ((main env.quiet img4).world.host .LUT)[200]? = some 255 := by
  have hform := host_LUT_of_stageC env img w CH totalPixels hfair hCH hlen hL hlast hpos
  refine ⟨⟨?_, ?_, ?_⟩, ?_, ?_⟩
  · rw [hform]
    apply List.map_congr_left
    intro i _
    have hr := roundHalfUp_eq_round (CH.getD i 0 * maxOutput) totalPixels hpos
    have hcast : ((CH.getD i 0 * maxOutput : Nat) : ℚ) = (CH.getD i 0 : ℚ) * 255 := by
      simp [maxOutput]
    rw [hcast] at hr
    rw [← hr]
    exact clamp_cast _
  · intro y hy
    rw [hform] at hy
    obtain ⟨i, _, rfl⟩ := List.mem_map.1 hy
    have : min (roundHalfUp (CH.getD i 0 * maxOutput) totalPixels) maxOutput ≤ 255 :=
      Nat.min_le_right _ _
    constructor
    · exact Int.ofNat_nonneg _
    · exact_mod_cast this
  · rw [hform, List.pairwise_map]
    refine List.Pairwise.imp_of_mem ?_ (List.pairwise_lt_range bins)
    intro a b _ hb hab
    have hb2 : b < CH.length := by rw [hlen]; exact List.mem_range.1 hb
    have hle := getD_le_of_pairwise CH hmono a b (Nat.le_of_lt hab) hb2
    have hmul : CH.getD a 0 * maxOutput ≤ CH.getD b 0 * maxOutput :=
      Nat.mul_le_mul_right _ hle
    have := roundHalfUp_mono _ _ totalPixels hmul
    exact Int.ofNat_le.2 (by omega)
  · rw [host_LUT_img4 env.quiet (quiet_fair env hfair) (quiet_noRaise env) 10 (by decide)]
    rfl
  · rw [host_LUT_img4 env.quiet (quiet_fair env hfair) (quiet_noRaise env) 200 (by decide)]
    rfl

theorem scenarioCH_length : scenarioCH.length = bins := by
  unfold scenarioCH
  rw [List.length_append, List.length_append, List.length_replicate, List.length_replicate,
    List.length_replicate]
  rfl

theorem scenarioCH_last : scenarioCH[bins - 1]? = some 4 := by
  unfold scenarioCH
  have h1 : (List.replicate 10 0 ++ List.replicate 190 2).length ≤ bins - 1 := by
    rw [List.length_append, List.length_replicate, List.length_replicate]
    decide
  rw [List.getElem?_append_right h1, List.length_append, List.length_replicate,
    List.length_replicate, List.getElem?_replicate]
  rfl

theorem scenarioWorld_cumulative :
    scenarioWorld.mem .dev_cumulative_histogram_output = scenarioCH := rfl

theorem scenarioWorld_LUT_length : (scenarioWorld.mem .dev_LUT_output).length = bins := by
  have h : scenarioWorld.mem .dev_LUT_output = identityLUT := by
    simp only [scenarioWorld]
  rw [h]
  exact List.length_range bins

theorem scenarioWorld_pairwise : scenarioCH.Pairwise (fun a b => a ≤ b) := by
  unfold scenarioCH
  simp only [List.pairwise_append, List.pairwise_replicate, List.mem_append]
  refine ⟨⟨Or.inr (Nat.le_refl _), Or.inr (Nat.le_refl _), ?_⟩, Or.inr (Nat.le_refl _), ?_⟩
  · intro a ha b hb
    rw [List.eq_of_mem_replicate ha, List.eq_of_mem_replicate hb]
    decide
  · intro a ha b hb
    rw [List.eq_of_mem_replicate hb]
    rcases ha with ha | ha <;> rw [List.eq_of_mem_replicate ha] <;> decide

/-- Witness for C3: the cumulative histogram of scenario A in the cumulative
buffer, work items in decreasing order. -/
theorem LUT_stage_normalises_witness :
    revEnv.Fair ∧ scenarioWorld.mem .dev_cumulative_histogram_output = scenarioCH ∧
    scenarioCH.length = bins ∧ (scenarioWorld.mem .dev_LUT_output).length = bins ∧
    scenarioCH.Pairwise (fun a b => a ≤ b) ∧ scenarioCH[bins - 1]? = some 4 ∧ 0 < 4 ∧
    (((stageC.foldl (exec revEnv img4) scenarioWorld).host .LUT =
        (List.range bins).map (fun i =>
          max 0 (min 255 (round ((scenarioCH.getD i 0 : ℚ) * 255 / (4 : Nat))))) ∧
      (∀ y ∈ (stageC.foldl (exec revEnv img4) scenarioWorld).host .LUT, 0 ≤ y ∧ y ≤ 255) ∧
      ((stageC.foldl (exec revEnv img4) scenarioWorld).host .LUT).Pairwise (fun a b => a ≤ b)) ∧
    ((main revEnv.quiet img4).world.host .LUT)[10]? = some 128 ∧
    ((main revEnv.quiet img4).world.host .LUT)[200]? = some 255) :=
  ⟨revEnv_fair, scenarioWorld_cumulative, scenarioCH_length, scenarioWorld_LUT_length,
    scenarioWorld_pairwise, scenarioCH_last, Nat.succ_pos 3,
    LUT_stage_normalises revEnv img4 scenarioWorld scenarioCH 4 revEnv_fair
      scenarioWorld_cumulative scenarioCH_length scenarioWorld_LUT_length
      scenarioWorld_pairwise scenarioCH_last (Nat.succ_pos 3)⟩

/-! ## Stage (d): reprojection -/

theorem stageD_host_output (env : Env) (img : Image) (w : World) (n : Nat)
    (hB : (w.mem .dev_image_output).length = n) :
    ((stageD n).foldl (exec env img) w).host .output_buffer =
      ((env.schedule .ReProject n).foldl
        (ReProject (w.mem .dev_image_input) (w.mem .dev_LUT_output))
        (w.mem .dev_image_output)).map (fun x => ((x % 256 : Nat) : Int)) := by
  have d4 := decode_byte .dev_image_output rfl
  have l4 : ((env.schedule .ReProject n).foldl
      (ReProject (w.mem .dev_image_input) (w.mem .dev_LUT_output))
      (w.mem .dev_image_output)).length = n := by
    rw [length_foldl _ (length_ReProject _ _), hB]
  simp [stageD, exec, effect, launch, argOf, Buf.elemBytes, Function.update, d4, l4]

theorem final_output_image (env : Env) (img : Image) (hno : env.NoRaise) :
    (main env img).world.output_image =
      some { width := img.width, height := img.height, depth := img.depth,
             spectrum := img.spectrum,
             data := (((main env img).world.host .output_buffer).take img.size).map Int.toNat } := by
  simp [main, runSteps_noRaise env img hno, handler, hostProgram, setup, allocation, stageA,
    stageB, stageC, stageD, report, exec, effect, launch, argOf, World.init, Function.update]

theorem devOutput_eq (env : Env) (img : Image) (hfair : env.Fair) (hwf : img.WellFormed) :
    devOutput env img = img.data.map (fun v => (devLUT env img).getD v 0 % 256) := by
  unfold devOutput
  apply dispatch_ReProject
  · rw [hwf.1]; exact hfair _ _
  · rw [List.length_map, List.length_range, hwf.1]
  · intro v hv
    rw [length_devLUT]
    exact hwf.2 v hv

theorem getD_mem_or_zero (l : List Nat) (i : Nat) : l.getD i 0 ∈ l ∨ l.getD i 0 = 0 := by
  rw [List.getD_eq_getElem?_getD]
  cases h : l[i]? with
  | none => right; rfl
  | some x => left; exact List.getElem?_mem h

theorem getElem?_eq_some_getD (l : List Nat) (i : Nat) (h : i < l.length) :
    l[i]? = some (l.getD i 0) := by
  rw [List.getD_eq_getElem?_getD, List.getElem?_eq_getElem h]
  rfl

theorem getD_le_255 (l : List Nat) (h : ∀ y ∈ l, y ≤ 255) (i : Nat) : l.getD i 0 ≤ 255 := by
  rcases getD_mem_or_zero l i with hm | hz
  · exact h _ hm
  · rw [hz]; exact Nat.zero_le _

/-- C4: on a device that runs every work item once, for every image and every
lookup table `L` (256 entries in 0..255) in the LUT buffer, the output buffer
read back after the ReProject stage (lines 146-156) has as many bytes as the
input and holds `L[input[p]]` at every position `p`; with the identity table in
the LUT buffer it equals the input.  In the run in which no call raises, the
output buffer has the input's length, `output[p] = LUT[input[p]]` for the
table `LUT` read back after stage (c), and the output image is built from the
output buffer with the input's width, height, depth and spectrum. -/
theorem ReProject_stage_substitutes (env : Env) (img : Image) (w : World) (L : List Nat)
    (hfair : env.Fair) (hwf : img.WellFormed)
    (hA : w.mem .dev_image_input = img.data) (hwL : w.mem .dev_LUT_output = L)
    (hB : (w.mem .dev_image_output).length = img.size)
    (hLlen : L.length = bins) (hL : ∀ y ∈ L, y ≤ 255) :
    (((stageD img.size).foldl (exec env img) w).host .output_buffer).length = img.data.length ∧
    ((stageD img.size).foldl (exec env img) w).host .output_buffer =
      img.data.map (fun v => ((L.getD v 0 : Nat) : Int)) ∧
    ((stageD img.size).foldl (exec env img)
        { w with mem := Function.update w.mem .dev_LUT_output identityLUT }).host .output_buffer =
      img.data.map (fun v => ((v : Nat) : Int)) ∧
    ((main env.quiet img).world.host .output_buffer).length = img.data.length ∧
    (∀ p, p < img.size →
      ((main env.quiet img).world.host .output_buffer)[p]? =
        ((main env.quiet img).world.host .LUT)[img.data.getD p 0]?) ∧
    (main env.quiet img).world.output_image =
      some { width := img.width, height := img.height, depth := img.depth,
             spectrum := img.spectrum,
             data := ((main env.quiet img).world.host .output_buffer).map Int.toNat } := by
  have hstage : ∀ (w2 : World) (L2 : List Nat), w2.mem .dev_image_input = img.data →
      w2.mem .dev_LUT_output = L2 → (w2.mem .dev_image_output).length = img.size →
      L2.length = bins → (∀ y ∈ L2, y ≤ 255) →
      ((stageD img.size).foldl (exec env img) w2).host .output_buffer =
        img.data.map (fun v => ((L2.getD v 0 : Nat) : Int)) := by
    intro w2 L2 h1 h2 h3 h4 h5
    rw [stageD_host_output env img w2 img.size h3, h1, h2,
      dispatch_ReProject img.data L2 _ _ (by rw [hwf.1]; exact hfair _ _) (by rw [h3, hwf.1])
        (by intro v hv; rw [h4]; exact hwf.2 v hv), List.map_map]
    apply List.map_congr_left
    intro v _
    have := getD_le_255 L2 h5 v
    simp only [Function.comp_apply]
    rw [Nat.mod_eq_of_lt (by omega), Nat.mod_eq_of_lt (by omega)]
  have hq := quiet_fair env hfair
  have hout : (main env.quiet img).world.host .output_buffer =
      img.data.map (fun v => (((devLUT env.quiet img).getD v 0 : Nat) : Int)) := by
    rw [(final_world env.quiet img (quiet_noRaise env) hwf.1).2.2.2,
      devOutput_eq env.quiet img hq hwf, List.map_map]
    apply List.map_congr_left
    intro v _
    have := getD_le_255 _ (devLUT_le env.quiet img hq hwf.1) v
    simp only [Function.comp_apply]
    rw [Nat.mod_eq_of_lt (by omega), Nat.mod_eq_of_lt (by omega)]
  refine ⟨?_, hstage w L hA hwL hB hLlen hL, ?_, ?_, ?_, ?_⟩
  · rw [hstage w L hA hwL hB hLlen hL, List.length_map]
  · have h := hstage { w with mem := Function.update w.mem .dev_LUT_output identityLUT }
      identityLUT (by simpa [Function.update] using hA) (by simp [Function.update])
      (by simpa [Function.update] using hB) (List.length_range bins) (by
        intro y hy
        have : y < bins := List.mem_range.1 hy
        unfold bins at this
        omega)
    rw [h]
    apply List.map_congr_left
    intro v hv
    have hv2 : v < bins := hwf.2 v hv
    have : identityLUT.getD v 0 = v := by
      unfold identityLUT
      rw [List.getD_eq_getElem?_getD, List.getElem?_range hv2]
      rfl
    rw [this]
  · rw [hout, List.length_map]
  · intro p hp
    have hp2 : p < img.data.length := by rw [hwf.1]; exact hp
    have hdp := getElem?_eq_some_getD img.data p hp2
    have hv : img.data.getD p 0 < bins := hwf.2 _ (List.getElem?_mem hdp)
    have hv2 : img.data.getD p 0 < (devLUT env.quiet img).length := by
      rw [length_devLUT]; exact hv
    have hle := getD_le_255 _ (devLUT_le env.quiet img hq hwf.1) (img.data.getD p 0)
    rw [hout, (final_world env.quiet img (quiet_noRaise env) hwf.1).2.2.1, List.getElem?_map,
      List.getElem?_map, hdp, getElem?_eq_some_getD _ _ hv2, Option.map_some', Option.map_some',
      toInt32_of_lt _ (by omega)]
  · rw [final_output_image env.quiet img (quiet_noRaise env)]
    have hlen : ((main env.quiet img).world.host .output_buffer).length = img.size := by
      rw [hout, List.length_map, hwf.1]
    rw [List.take_of_length_le (by omega)]

theorem scenarioWorld_input : scenarioWorld.mem .dev_image_input = img4.data := by
  simp only [scenarioWorld]

theorem scenarioWorld_LUT : scenarioWorld.mem .dev_LUT_output = identityLUT := by
  simp only [scenarioWorld]

theorem scenarioWorld_output_length : (scenarioWorld.mem .dev_image_output).length = img4.size := by
  simp only [scenarioWorld]
  rfl

theorem identityLUT_le : ∀ y ∈ identityLUT, y ≤ 255 := by
  intro y hy
  have : y < bins := List.mem_range.1 hy
  unfold bins at this
  omega

/-- Witness for C4: the pixels of scenario A and the identity table in the
device buffers, work items in decreasing order. -/
theorem ReProject_stage_substitutes_witness :
    revEnv.Fair ∧ img4.WellFormed ∧ scenarioWorld.mem .dev_image_input = img4.data ∧
    scenarioWorld.mem .dev_LUT_output = identityLUT ∧
    (scenarioWorld.mem .dev_image_output).length = img4.size ∧
    identityLUT.length = bins ∧ (∀ y ∈ identityLUT, y ≤ 255) ∧
    ((((stageD img4.size).foldl (exec revEnv img4) scenarioWorld).host .output_buffer).length =
        img4.data.length ∧
      ((stageD img4.size).foldl (exec revEnv img4) scenarioWorld).host .output_buffer =
        img4.data.map (fun v => ((identityLUT.getD v 0 : Nat) : Int)) ∧
      ((stageD img4.size).foldl (exec revEnv img4)
          { scenarioWorld with
            mem := Function.update scenarioWorld.mem .dev_LUT_output identityLUT }).host
          .output_buffer =
        img4.data.map (fun v => ((v : Nat) : Int)) ∧
      ((main revEnv.quiet img4).world.host .output_buffer).length = img4.data.length ∧
      (∀ p, p < img4.size →
        ((main revEnv.quiet img4).world.host .output_buffer)[p]? =
          ((main revEnv.quiet img4).world.host .LUT)[img4.data.getD p 0]?) ∧
      (main revEnv.quiet img4).world.output_image =
        some { width := img4.width, height := img4.height, depth := img4.depth,
               spectrum := img4.spectrum,
               data := ((main revEnv.quiet img4).world.host .output_buffer).map Int.toNat }) :=
  ⟨revEnv_fair, img4_wellFormed, scenarioWorld_input, scenarioWorld_LUT,
    scenarioWorld_output_length, List.length_range bins, identityLUT_le,
    ReProject_stage_substitutes revEnv img4 scenarioWorld identityLUT revEnv_fair
      img4_wellFormed scenarioWorld_input scenarioWorld_LUT scenarioWorld_output_length
      (List.length_range bins) identityLUT_le⟩

/-! ## The statement list: dispatch sizes, order, bindings -/

/-- C6 (the code departs from the claim): for an image of `n` pixels the four
dispatches have global work sizes `n`, 1024, 1024, `n`: `hist_cum` and `LUT`
are sized by `histsize`, the byte size of the 256-entry `int` histogram, where
their domain has 256 elements. -/
theorem dispatch_global_sizes (n : Nat) :
    dispatches (hostProgram n) =
      [(.hist_simple, n), (.hist_cum, 1024), (.LUT, 1024), (.ReProject, n)] ∧
    (dispatches (hostProgram n)).map (fun d => domainSize n d.1) = [n, 256, 256, n] := by
  constructor <;> rfl

/-- C7: the host creates one in-order command queue; the statement list splits
around exactly four dispatches, `hist_simple`, `hist_cum`, `LUT`, `ReProject`
in this order; between two consecutive dispatches lies a blocking read-back of
the buffer bound as output of the earlier stage; and a zero fill over all
`histsize` bytes of the histogram, cumulative and LUT buffer precedes the
dispatch of the stage that writes it, so that each of these buffers holds 256
zeros when its stage is dispatched. -/
theorem stages_in_order_with_blocking_readbacks (n : Nat) :
    ∃ pre g1 g2 g3 post : List Step,
      hostProgram n =
        pre ++ [Step.enqueueNDRangeKernel .hist_simple n .prof_event] ++
        g1 ++ [Step.enqueueNDRangeKernel .hist_cum histsize .prof_event2] ++
        g2 ++ [Step.enqueueNDRangeKernel .LUT histsize .prof_event3] ++
        g3 ++ [Step.enqueueNDRangeKernel .ReProject n .prof_event4] ++ post ∧
      (∀ s ∈ pre ++ g1 ++ g2 ++ g3 ++ post, s.isDispatch = false) ∧
      Step.createQueue true false ∈ pre ∧
      (∀ profiling outOfOrder, Step.createQueue profiling outOfOrder ∈ hostProgram n →
        outOfOrder = false) ∧
      Step.enqueueReadBuffer .dev_histogram_output true 0 histsize .H ∈ g1 ∧
      Step.enqueueReadBuffer .dev_cumulative_histogram_output true 0 histsize .CH ∈ g2 ∧
      Step.enqueueReadBuffer .dev_LUT_output true 0 histsize .LUT ∈ g3 ∧
      Step.enqueueReadBuffer .dev_image_output true 0 n .output_buffer ∈ post ∧
      Step.enqueueFillBuffer .dev_histogram_output 0 0 histsize ∈ pre ∧
      Step.enqueueFillBuffer .dev_cumulative_histogram_output 0 0 histsize ∈ g1 ∧
      Step.enqueueFillBuffer .dev_LUT_output 0 0 histsize ∈ g2 ∧
      (∀ (env : Env) (img : Image),
        (pre.foldl (exec env img) World.init).mem .dev_histogram_output =
          List.replicate bins 0 ∧
        ((pre ++ [Step.enqueueNDRangeKernel .hist_simple n .prof_event] ++ g1).foldl
            (exec env img) World.init).mem .dev_cumulative_histogram_output =
          List.replicate bins 0 ∧
        ((pre ++ [Step.enqueueNDRangeKernel .hist_simple n .prof_event] ++
            g1 ++ [Step.enqueueNDRangeKernel .hist_cum histsize .prof_event2] ++ g2).foldl
            (exec env img) World.init).mem .dev_LUT_output =
          List.replicate bins 0) := by
  refine ⟨setup ++ allocation n ++ (stageA n).take 5, (stageA n).drop 6 ++ stageB.take 5,
    stageB.drop 6 ++ stageC.take 5, stageC.drop 6 ++ (stageD n).take 5,
    (stageD n).drop 6 ++ report, ?_, ?_, ?_, ?_, ?_, ?_, ?_, ?_, ?_, ?_, ?_, ?_⟩
  · simp [hostProgram, setup, allocation, stageA, stageB, stageC, stageD, report]
  · intro s hs
    simp [setup, allocation, stageA, stageB, stageC, stageD, report] at hs
    rcases hs with h | h | h | h | h | h | h | h | h | h | h | h | h | h | h | h | h | h | h | h |
      h | h | h | h | h | h | h | h | h | h | h | h | h | h | h | h | h | h | h | h | h | h | h |
      h | h | h | h | h | h | h | h | h <;> subst h <;> rfl
  · simp [setup]
  · intro profiling outOfOrder h
    simp [hostProgram, setup, allocation, stageA, stageB, stageC, stageD, report] at h
    exact h.2
  · simp [stageA]
  · simp [stageB]
  · simp [stageC]
  · simp [stageD]
  · simp [stageA]
  · simp [stageB]
  · simp [stageC]
  · intro env img
    have e2 : (0 + histsize) / sizeofMytype = bins := by decide
    have e1 : histsize / sizeofMytype = bins := by decide
    refine ⟨?_, ?_, ?_⟩ <;>
    simp [setup, allocation, stageA, stageB, stageC, exec, effect, launch, argOf, World.init,
      Buf.elemBytes, e1, e2, fill_zero, Function.update]

/-- C8: the `setArg` calls bind `hist_simple(0 = input image, 1 = histogram)`,
`hist_cum(0 = histogram, 1 = cumulative)`, `LUT(0 = cumulative, 1 = LUT)` and
`ReProject(0 = input image, 1 = LUT, 2 = output image)`; the buffer a stage
reads is the one bound as output of the stage before it, and the four blocking
read-backs fetch, in order, the output buffers of the four stages into `H`,
`CH`, `LUT` and `output_buffer`. -/
theorem kernel_arguments_chain_the_stages (n : Nat) :
    argBindings (hostProgram n) .hist_simple =
      [(0, .dev_image_input), (1, .dev_histogram_output)] ∧
    argBindings (hostProgram n) .hist_cum =
      [(0, .dev_histogram_output), (1, .dev_cumulative_histogram_output)] ∧
    argBindings (hostProgram n) .LUT =
      [(0, .dev_cumulative_histogram_output), (1, .dev_LUT_output)] ∧
    argBindings (hostProgram n) .ReProject =
      [(0, .dev_image_input), (1, .dev_LUT_output), (2, .dev_image_output)] ∧
    (argBindings (hostProgram n) .hist_cum).lookup 0 =
      (argBindings (hostProgram n) .hist_simple).lookup 1 ∧
    (argBindings (hostProgram n) .LUT).lookup 0 =
      (argBindings (hostProgram n) .hist_cum).lookup 1 ∧
    (argBindings (hostProgram n) .ReProject).lookup 1 =
      (argBindings (hostProgram n) .LUT).lookup 1 ∧
    (argBindings (hostProgram n) .ReProject).lookup 0 =
      (argBindings (hostProgram n) .hist_simple).lookup 0 ∧
    readBacks (hostProgram n) =
      [(.dev_histogram_output, true, .H), (.dev_cumulative_histogram_output, true, .CH),
       (.dev_LUT_output, true, .LUT), (.dev_image_output, true, .output_buffer)] ∧
    (readBacks (hostProgram n)).map (fun r => some r.1) =
      [(argBindings (hostProgram n) .hist_simple).lookup 1,
       (argBindings (hostProgram n) .hist_cum).lookup 1,
       (argBindings (hostProgram n) .LUT).lookup 1,
       (argBindings (hostProgram n) .ReProject).lookup 2] := by
  refine ⟨rfl, rfl, rfl, rfl, rfl, rfl, rfl, rfl, rfl, rfl⟩

/-! ## Profiling report -/

theorem executionTimes_of_run (env : Env) (img : Image) (hno : env.NoRaise) :
    executionTimes (main env img).world.stdout =
      [("Histogram kernel execution time [ns]: ",
          sub64 (env.timestamps .prof_event).2 (env.timestamps .prof_event).1),
       ("Cumulative Histogram kernel execution time [ns]: ",
          sub64 (env.timestamps .prof_event).2 (env.timestamps .prof_event2).1),
       ("LUT kernel execution time [ns]: ",
          sub64 (env.timestamps .prof_event).2 (env.timestamps .prof_event3).1),
       ("Vector kernel execution time [ns]: ",
          sub64 (env.timestamps .prof_event).2 (env.timestamps .prof_event4).1)] := by
  simp [main, runSteps_noRaise env img hno, handler, hostProgram, setup, allocation, stageA,
    stageB, stageC, stageD, report, exec, effect, launch, argOf, World.init, Function.update,
    executionTimes]

/-- C10 (the code departs from the claim): with the events stamped
`(100, 200)`, `(300, 450)`, `(500, 560)`, `(600, 700)` the run on the 2x2 image
prints 100 for the histogram kernel, and for the other three kernels the
`cl_ulong` differences `200 - 300`, `200 - 500`, `200 - 600`: each line
subtracts the start of its own event from the end of the first event, where the
durations of the events are 150, 60 and 100. -/
theorem execution_times_use_first_event_end :
    executionTimes (main seqEnv img4).world.stdout =
      [("Histogram kernel execution time [ns]: ", 100),
       ("Cumulative Histogram kernel execution time [ns]: ", 18446744073709551516),
       ("LUT kernel execution time [ns]: ", 18446744073709551316),
       ("Vector kernel execution time [ns]: ", 18446744073709551216)] ∧
    [Ev.prof_event, Ev.prof_event2, Ev.prof_event3, Ev.prof_event4].map
        (fun e => sub64 (seqEnv.timestamps e).2 (seqEnv.timestamps e).1) =
      [100, 150, 60, 100] := by
  constructor
  · rw [executionTimes_of_run seqEnv img4 seqEnv_noRaise]
    rfl
  · rfl

/-! ## Exceptions -/

theorem runSteps_raise (env : Env) (img : Image) (e : Exn) :
    ∀ (p : List Step) (k i0 : Nat) (w : World) (s : Step), p[k]? = some s →
      s.mayRaise = true → env.raises (i0 + k) = some e →
      (∀ j, j < k → env.raises (i0 + j) = none) →
      runSteps env img i0 p w = (onRaise ((p.take k).foldl (exec env img) w) s, some e) := by
  intro p
  induction p with
  | nil => intro k i0 w s h; simp at h
  | cons a rest ih =>
    intro k i0 w s hk hs hr hfirst
    cases k with
    | zero =>
      simp only [List.getElem?_cons_zero, Option.some.injEq] at hk
      subst hk
      simp only [runSteps, hs, if_true, Nat.add_zero] at hr ⊢
      rw [hr]
      rfl
    | succ k =>
      have h0 : env.raises i0 = none := by simpa using hfirst 0 (Nat.succ_pos k)
      simp only [List.getElem?_cons_succ] at hk
      simp only [runSteps, h0, ite_self, List.take_succ_cons, List.foldl_cons]
      apply ih k (i0 + 1) _ s hk hs
      · rw [← hr]; congr 1; omega
      · intro j hj
        have := hfirst (j + 1) (by omega)
        rw [← this]; congr 1; omega

theorem launch_frame (env : Env) (k : Kern) (g : Nat) (w : World) :
    (launch env k g w).stdout = w.stdout ∧ (launch env k g w).stderr = w.stderr ∧
    (launch env k g w).executed = w.executed ∧
    (launch env k g w).output_image = w.output_image := by
  unfold launch
  cases k <;> simp only <;> split <;> simp

theorem exec_executed (env : Env) (img : Image) (w : World) (s : Step) :
    (exec env img w s).executed = w.executed ++ [s] := by
  cases s <;> simp [exec, effect, (launch_frame env _ _ w).2.2.1]
  · split <;> rfl

theorem exec_stderr (env : Env) (img : Image) (w : World) (s : Step) :
    (exec env img w s).stderr = w.stderr := by
  cases s <;> simp [exec, effect, (launch_frame env _ _ w).2.1]
  · split <;> rfl

theorem exec_output_image (env : Env) (img : Image) (w : World) (s : Step)
    (hs : s ≠ .constructOutputImage) : (exec env img w s).output_image = w.output_image := by
  cases s <;> simp [exec, effect, (launch_frame env _ _ w).2.2.2] at hs ⊢
  · split <;> rfl

theorem exec_stdout (env : Env) (img : Image) (w : World) (s : Step)
    (hs : s.showsResult = false) (hw : ∀ o ∈ w.stdout, o.showsResult = false) :
    ∀ o ∈ (exec env img w s).stdout, o.showsResult = false := by
  cases s <;> simp [exec, effect, (launch_frame env _ _ w).1, Step.showsResult] at hs ⊢ <;>
    first
    | exact hw
    | (intro o ho
       rcases ho with ho | ho
       · exact hw o ho
       · subst ho; rfl)

theorem foldl_exec_executed (env : Env) (img : Image) (p : List Step) :
    ∀ w : World, (p.foldl (exec env img) w).executed = w.executed ++ p := by
  induction p with
  | nil => intro w; simp
  | cons s rest ih =>
    intro w
    rw [List.foldl_cons, ih, exec_executed, List.append_assoc]
    rfl

theorem foldl_exec_stderr (env : Env) (img : Image) (p : List Step) :
    ∀ w : World, (p.foldl (exec env img) w).stderr = w.stderr := by
  induction p with
  | nil => intro w; rfl
  | cons s rest ih => intro w; rw [List.foldl_cons, ih, exec_stderr]

theorem foldl_exec_output_image (env : Env) (img : Image) (p : List Step)
    (hp : Step.constructOutputImage ∉ p) :
    ∀ w : World, (p.foldl (exec env img) w).output_image = w.output_image := by
  induction p with
  | nil => intro w; rfl
  | cons s rest ih =>
    intro w
    have h1 : s ≠ .constructOutputImage := fun h => hp (by rw [h]; exact List.mem_cons_self _ _)
    have h2 : Step.constructOutputImage ∉ rest := fun h => hp (List.mem_cons_of_mem _ h)
    rw [List.foldl_cons, ih h2, exec_output_image env img w s h1]

theorem foldl_exec_stdout (env : Env) (img : Image) (p : List Step)
    (hp : ∀ s ∈ p, s.showsResult = false) :
    ∀ w : World, (∀ o ∈ w.stdout, o.showsResult = false) →
      ∀ o ∈ (p.foldl (exec env img) w).stdout, o.showsResult = false := by
  induction p with
  | nil => intro w hw; exact hw
  | cons s rest ih =>
    intro w hw
    rw [List.foldl_cons]
    exact ih (fun t ht => hp t (List.mem_cons_of_mem _ ht)) _
      (exec_stdout env img w s (hp s (List.mem_cons_self _ _)) hw)

theorem onRaise_frame (w : World) (s : Step) :
    (onRaise w s).executed = w.executed ∧ (onRaise w s).stderr = w.stderr ∧
    (onRaise w s).output_image = w.output_image ∧
    ((∀ o ∈ w.stdout, o.showsResult = false) →
      ∀ o ∈ (onRaise w s).stdout, o.showsResult = false) := by
  cases s <;> simp [onRaise]
  intro hw o ho
  rcases ho with ho | ho
  · exact hw o ho
  · subst ho; rfl

theorem stages_show_nothing (n : Nat) :
    ∀ s ∈ setup ++ allocation n ++ stageA n ++ stageB ++ stageC ++ stageD n,
      s.showsResult = false ∧ s ≠ .constructOutputImage := by
  intro s hs
  simp [setup, allocation, stageA, stageB, stageC, stageD] at hs
  rcases hs with h | h | h | h | h | h | h | h | h | h | h | h | h | h | h | h | h | h | h | h |
    h | h | h | h | h | h | h | h | h | h | h | h | h | h | h | h | h | h | h | h | h | h <;>
    subst h <;> exact ⟨rfl, by simp⟩

theorem main_world_of_raise (env : Env) (img : Image) (k : Nat) (s : Step) (e : Exn)
    (hk : (hostProgram img.size)[k]? = some s)
    (hs : s.mayRaise = true) (hraise : env.raises k = some e)
    (hfirst : ∀ j, j < k → env.raises j = none) :
    main env img =
      { world := handler env (onRaise ((List.take k (hostProgram img.size)).foldl (exec env img)
          World.init) s) (some e), raised := some e, exitCode := 0 } := by
  have hrun := runSteps_raise env img e (hostProgram img.size) k 0 World.init s hk hs
    (by simpa using hraise) (by intro j hj; simpa using hfirst j hj)
  unfold main
  rw [hrun]

/-- What a run looks like when the statement at position `k`, one of lines
49-156, is the first whose library call raises. -/
theorem main_of_raise (env : Env) (img : Image) (k : Nat) (s : Step) (e : Exn)
    (hk : (setup ++ allocation img.size ++ stageA img.size ++ stageB ++ stageC ++
      stageD img.size)[k]? = some s)
    (hs : s.mayRaise = true) (hraise : env.raises k = some e)
    (hfirst : ∀ j, j < k → env.raises j = none) :
    (main env img).raised = some e ∧
    (main env img).world.executed = (hostProgram img.size).take k ∧
    (∀ o ∈ (main env img).world.stdout, o.showsResult = false) ∧
    (main env img).world.output_image = none ∧
    (main env img).world.stderr = [errorLine env e] ∧
    (main env img).exitCode = 0 := by
  have hlt : k < (setup ++ allocation img.size ++ stageA img.size ++ stageB ++ stageC ++
      stageD img.size).length := (List.getElem?_eq_some.1 hk).1
  have hprog : hostProgram img.size =
      (setup ++ allocation img.size ++ stageA img.size ++ stageB ++ stageC ++
        stageD img.size) ++ report := rfl
  have hk2 : (hostProgram img.size)[k]? = some s := by
    rw [hprog, List.getElem?_append_left hlt, hk]
  have htake : (hostProgram img.size).take k =
      (setup ++ allocation img.size ++ stageA img.size ++ stageB ++ stageC ++
        stageD img.size).take k := by
    rw [hprog, List.take_append_of_le_length (Nat.le_of_lt hlt)]
  have hmem : ∀ t ∈ (hostProgram img.size).take k,
      t.showsResult = false ∧ t ≠ .constructOutputImage := by
    intro t ht
    rw [htake] at ht
    exact stages_show_nothing img.size t (List.mem_of_mem_take ht)
  have hrun := runSteps_raise env img e (hostProgram img.size) k 0 World.init s hk2 hs
    (by simpa using hraise) (by intro j hj; simpa using hfirst j hj)
  have hfr := onRaise_frame ((List.take k (hostProgram img.size)).foldl (exec env img) World.init) s
  have hmain : main env img =
      { world := handler env (onRaise ((List.take k (hostProgram img.size)).foldl (exec env img)
          World.init) s) (some e), raised := some e, exitCode := 0 } := by
    unfold main
    rw [hrun]
  rw [hmain]
  refine ⟨rfl, ?_, ?_, ?_, ?_, rfl⟩
  · show (onRaise _ s).executed = _
    rw [hfr.1, foldl_exec_executed]
    rfl
  · show ∀ o ∈ (onRaise _ s).stdout, o.showsResult = false
    apply hfr.2.2.2
    apply foldl_exec_stdout env img _ (fun t ht => (hmem t ht).1)
    intro o ho
    simp [World.init] at ho
  · show (onRaise _ s).output_image = none
    rw [hfr.2.2.1, foldl_exec_output_image env img _ (fun h => (hmem _ h).2 rfl)]
    rfl
  · show (onRaise _ s).stderr ++ [errorLine env e] = [errorLine env e]
    rw [hfr.2.1, foldl_exec_stderr]
    rfl

/-- C9 (amended): if the statement at position `k`, one of lines 49-156 (image
load, context, queue, program build, buffer allocation, upload, fill, kernel
creation and arguments, the four dispatches and read-backs), is the first
whose library call raises, then the statements before it are all that ran (so
no later stage is dispatched), no histogram, cumulative histogram or LUT is
printed, the output image is neither built nor displayed, the handler writes
the single line `ERROR: <what>, <error string>` (for a CImg exception
`ERROR: <what>`) to standard error, and `main` returns 0. -/
theorem raise_ends_the_run (env : Env) (img : Image) (k : Nat) (s : Step) (e : Exn)
    (hk : (setup ++ allocation img.size ++ stageA img.size ++ stageB ++ stageC ++
      stageD img.size)[k]? = some s)
    (hs : s.mayRaise = true) (hraise : env.raises k = some e)
    (hfirst : ∀ j, j < k → env.raises j = none) :
    (main env img).raised = some e ∧
    (main env img).world.executed = (hostProgram img.size).take k ∧
    (∀ o ∈ (main env img).world.stdout, o.showsResult = false) ∧
    (main env img).world.output_image = none ∧
    (main env img).world.stderr = [errorLine env e] ∧
    (main env img).exitCode = 0 :=
  main_of_raise env img k s e hk hs hraise hfirst

theorem failAt_first (i : Nat) (e : Exn) : ∀ j, j < i → (failAt i e).raises j = none := by
  intro j hj
  have : j ≠ i := by omega
  simp [failAt, this]

theorem failAt_raises (i : Nat) (e : Exn) : (failAt i e).raises i = some e := by
  simp [failAt]

/-- Witness for C9: the dispatch of `hist_cum` (line 128) raises on the 2x2 image. -/
theorem raise_ends_the_run_witness :
    (setup ++ allocation img4.size ++ stageA img4.size ++ stageB ++ stageC ++
      stageD img4.size)[26]? = some (.enqueueNDRangeKernel .hist_cum histsize .prof_event2) ∧
    (Step.enqueueNDRangeKernel .hist_cum histsize .prof_event2).mayRaise = true ∧
    (failAt 26 dispatchError).raises 26 = some dispatchError ∧
    (∀ j, j < 26 → (failAt 26 dispatchError).raises j = none) ∧
    ((main (failAt 26 dispatchError) img4).raised = some dispatchError ∧
      (main (failAt 26 dispatchError) img4).world.executed = (hostProgram img4.size).take 26 ∧
      (∀ o ∈ (main (failAt 26 dispatchError) img4).world.stdout, o.showsResult = false) ∧
      (main (failAt 26 dispatchError) img4).world.output_image = none ∧
      (main (failAt 26 dispatchError) img4).world.stderr =
        [errorLine (failAt 26 dispatchError) dispatchError] ∧
      (main (failAt 26 dispatchError) img4).exitCode = 0) :=
  ⟨rfl, rfl, failAt_raises 26 dispatchError, failAt_first 26 dispatchError,
    raise_ends_the_run (failAt 26 dispatchError) img4 26 _ dispatchError rfl rfl
      (failAt_raises 26 dispatchError) (failAt_first 26 dispatchError)⟩

/-- C9 as stated fails: when the dispatch of `hist_cum` raises and when the
dispatch of `LUT` raises with the same OpenCL error, the two runs write the same
line to standard error, show the same output and both return 0, although the
first ran one stage and the second two; the report does not tell which stage
failed. -/
theorem error_report_does_not_name_the_stage :
    (main (failAt 26 dispatchError) img4).world.stderr =
      ["ERROR: clEnqueueNDRangeKernel, CL_OUT_OF_RESOURCES"] ∧
    (main (failAt 33 dispatchError) img4).world.stderr =
      ["ERROR: clEnqueueNDRangeKernel, CL_OUT_OF_RESOURCES"] ∧
    (main (failAt 26 dispatchError) img4).world.stdout = [.display "input" img4, .runningOn] ∧
    (main (failAt 33 dispatchError) img4).world.stdout = [.display "input" img4, .runningOn] ∧
    (main (failAt 26 dispatchError) img4).exitCode = 0 ∧
    (main (failAt 33 dispatchError) img4).exitCode = 0 ∧
    dispatches (main (failAt 26 dispatchError) img4).world.executed = [(.hist_simple, 4)] ∧
    dispatches (main (failAt 33 dispatchError) img4).world.executed =
      [(.hist_simple, 4), (.hist_cum, 1024)] := by
  have h26 := main_of_raise (failAt 26 dispatchError) img4 26 _ dispatchError rfl rfl
    (failAt_raises 26 dispatchError) (failAt_first 26 dispatchError)
  have h33 := main_of_raise (failAt 33 dispatchError) img4 33
    (.enqueueNDRangeKernel .LUT histsize .prof_event3) dispatchError rfl rfl
    (failAt_raises 33 dispatchError) (failAt_first 33 dispatchError)
  refine ⟨?_, ?_, rfl, rfl, rfl, rfl, ?_, ?_⟩
  · rw [h26.2.2.2.2.1]; decide
  · rw [h33.2.2.2.2.1]; decide
  · rw [h26.2.1]; rfl
  · rw [h33.2.1]; rfl

/-! ## Images without pixels -/

theorem main_world_noRaise (env : Env) (img : Image) (hno : env.NoRaise) :
    (main env img).world = (hostProgram img.size).foldl (exec env img) World.init := by
  unfold main
  rw [runSteps_noRaise env img hno]
  rfl

theorem main_raised_noRaise (env : Env) (img : Image) (hno : env.NoRaise) :
    (main env img).raised = none := by
  unfold main
  rw [runSteps_noRaise env img hno]


/-- C5 (amended): for an image without pixels the host runs the same statements
as for any other image: it loads and displays the image, creates context, queue
and program, and then requests a device buffer of 0 bytes (line 93).  If the
library raises on that request, the run ends in the handler: no device buffer
holds anything, no statement was enqueued and no stage dispatched (the LUT
stage did not run), `output_buffer` and the output image were never built, the
line `ERROR: ...` is written to standard error and `main` returns 0. -/
theorem zero_pixel_run_ends_at_first_allocation (env : Env) (img : Image) (e : Exn)
    (himg : img.size = 0) (hraise : env.raises 9 = some e)
    (hfirst : ∀ j, j < 9 → env.raises j = none) :
    (hostProgram img.size)[9]? = some (.createBuffer .dev_image_input 0) ∧
    (main env img).raised = some e ∧
    (main env img).world.executed =
      [.loadImage, .displayInput, .getContext, .printRunningOn, .createQueue true false,
       .addSources, .createProgram, .build, .newVector .H bins] ∧
    dispatches (main env img).world.executed = [] ∧
    (∀ b, (main env img).world.mem b = []) ∧
    (main env img).world.host .output_buffer = [] ∧
    (main env img).world.output_image = none ∧
    (main env img).world.stderr = [errorLine env e] ∧
    (main env img).exitCode = 0 := by
  have hstep : (hostProgram img.size)[9]? = some (.createBuffer .dev_image_input img.size) := rfl
  have h := main_of_raise env img 9 (.createBuffer .dev_image_input img.size) e rfl rfl hraise
    hfirst
  have hw := main_world_of_raise env img 9 _ e hstep rfl hraise hfirst
  have hex : (main env img).world.executed =
      [.loadImage, .displayInput, .getContext, .printRunningOn, .createQueue true false,
       .addSources, .createProgram, .build, .newVector .H bins] := by
    rw [h.2.1]; rfl
  refine ⟨by rw [hstep, himg], h.1, hex, by rw [hex]; rfl, ?_, ?_, h.2.2.2.1, h.2.2.2.2.1,
    h.2.2.2.2.2⟩
  · intro b
    rw [hw]
    have ht : List.take 9 (hostProgram img.size) = setup ++ [.newVector .H bins] := rfl
    rw [ht]
    simp [setup, handler, onRaise, exec, effect, World.init]
  · rw [hw]
    have ht : List.take 9 (hostProgram img.size) = setup ++ [.newVector .H bins] := rfl
    rw [ht]
    simp [setup, handler, onRaise, exec, effect, World.init, Function.update]

/-- Witness for C5: the image without pixels on a device whose library rejects
the zero-byte buffer. -/
theorem zero_pixel_run_ends_at_first_allocation_witness :
    emptyImage.size = 0 ∧ (failAt 9 bufferSizeError).raises 9 = some bufferSizeError ∧
    (∀ j, j < 9 → (failAt 9 bufferSizeError).raises j = none) ∧
    ((hostProgram emptyImage.size)[9]? = some (.createBuffer .dev_image_input 0) ∧
      (main (failAt 9 bufferSizeError) emptyImage).raised = some bufferSizeError ∧
      (main (failAt 9 bufferSizeError) emptyImage).world.executed =
        [.loadImage, .displayInput, .getContext, .printRunningOn, .createQueue true false,
         .addSources, .createProgram, .build, .newVector .H bins] ∧
      dispatches (main (failAt 9 bufferSizeError) emptyImage).world.executed = [] ∧
      (∀ b, (main (failAt 9 bufferSizeError) emptyImage).world.mem b = []) ∧
      (main (failAt 9 bufferSizeError) emptyImage).world.host .output_buffer = [] ∧
      (main (failAt 9 bufferSizeError) emptyImage).world.output_image = none ∧
      (main (failAt 9 bufferSizeError) emptyImage).world.stderr =
        [errorLine (failAt 9 bufferSizeError) bufferSizeError] ∧
      (main (failAt 9 bufferSizeError) emptyImage).exitCode = 0) :=
  ⟨rfl, failAt_raises 9 bufferSizeError, failAt_first 9 bufferSizeError,
    zero_pixel_run_ends_at_first_allocation (failAt 9 bufferSizeError) emptyImage
      bufferSizeError rfl (failAt_raises 9 bufferSizeError) (failAt_first 9 bufferSizeError)⟩

/-- C5 as stated fails: the host never inspects the pixel count.  On a device
whose library raises nothing, the run on the image without pixels raises
nothing, executes every statement of the program, allocates the five buffers,
dispatches all four stages and builds an output image.  On a device whose
library rejects the zero-byte buffer, the exception is the `cl::Error` of
`clCreateBuffer`, raised after context, queue and program were created. -/
theorem zero_pixel_run_is_not_rejected_by_the_host :
    (main seqEnv emptyImage).raised = none ∧
    (main seqEnv emptyImage).world.executed = hostProgram 0 ∧
    dispatches (main seqEnv emptyImage).world.executed =
      [(.hist_simple, 0), (.hist_cum, 1024), (.LUT, 1024), (.ReProject, 0)] ∧
    Step.createBuffer .dev_image_input 0 ∈ (main seqEnv emptyImage).world.executed ∧
    (main seqEnv emptyImage).world.output_image = some emptyImage ∧
    (main seqEnv emptyImage).world.stderr = [] ∧
    (main (failAt 9 bufferSizeError) emptyImage).raised =
      some (.clError "clCreateBuffer" (-61)) ∧
    (main (failAt 9 bufferSizeError) emptyImage).world.executed =
      [.loadImage, .displayInput, .getContext, .printRunningOn, .createQueue true false,
       .addSources, .createProgram, .build, .newVector .H bins] ∧
    (main (failAt 9 bufferSizeError) emptyImage).world.stderr =
      ["ERROR: clCreateBuffer, CL_INVALID_BUFFER_SIZE"] ∧
    (main (failAt 9 bufferSizeError) emptyImage).exitCode = 0 := by
  have hw := main_world_noRaise seqEnv emptyImage seqEnv_noRaise
  have hex : (main seqEnv emptyImage).world.executed = hostProgram 0 := by
    rw [hw, foldl_exec_executed]
    rfl
  have h9 := main_of_raise (failAt 9 bufferSizeError) emptyImage 9
    (.createBuffer .dev_image_input emptyImage.size) bufferSizeError rfl rfl
    (failAt_raises 9 bufferSizeError) (failAt_first 9 bufferSizeError)
  refine ⟨main_raised_noRaise seqEnv emptyImage seqEnv_noRaise, hex, ?_, ?_, ?_, ?_, h9.1, ?_,
    ?_, rfl⟩
  · rw [hex]; rfl
  · rw [hex]; decide
  · rw [final_output_image seqEnv emptyImage seqEnv_noRaise]; rfl
  · rw [hw, foldl_exec_stderr]
    rfl
  · rw [h9.2.1]; rfl
  · rw [h9.2.2.2.2.1]; decide

end Tutorial2
